import Mathlib

/-!
# Shallow embedding of the churn-mailing filter pipeline (`src/raf.py`)

The program is a single-pass table transformation
`processar_dados_churn_com_motivos(df, categorias_permitidas, pagadores_a_remover)`
over a pandas DataFrame.  We embed the data model as follows:

* a cell is a string, an integer (the image of `pd.to_numeric`), a parsed
  date/time (the image of `pd.to_datetime`, with timestamps abstracted to
  integers, one unit per day), or the null/NaN marker;
* a row is an association list from column names to cells (pandas rows carry
  one value per named column; a missing binding reads as null);
* a table is a list of column names together with a list of rows; column
  presence tests (`'X' in df.columns`) consult the column list.

External library functions are given executable stand-ins: Python `int(...)`
and the string-to-date parse of `pd.to_datetime` are modelled by `parseInt`
below (an optional minus sign followed by decimal digits; which strings parse
is irrelevant to every property below, only the success/failure split
matters), and `datetime.now()` is lifted to an explicit `now : Int` parameter
of the pipeline.  A step whose pandas original
raises `KeyError` (column lookup or `sort_values` on an absent column) is
modelled as returning `none`.
-/

namespace Mailingraf

/-- A single table cell: string, coerced number, parsed date, or null/NaN. -/
inductive Cell where
  | str : String → Cell
  | num : Int → Cell
  | date : Int → Cell
  | null : Cell
deriving DecidableEq

/-- A row: an association list from column names to cells. -/
abbrev Row := List (String × Cell)

/-- A table: column names plus rows. -/
structure Table where
  cols : List String
  rows : List Row
deriving DecidableEq

/-- Read the cell of column `c` in row `r`; a missing binding reads as null
(pandas rows always carry every column, so this default is only a totalising
choice). -/
def getCell (r : Row) (c : String) : Cell :=
  match r.find? (fun p => p.1 == c) with
  | some p => p.2
  | none => Cell.null

/-- Does row `r` carry a binding for column `c`? -/
def hasKey (r : Row) (c : String) : Bool :=
  r.any (fun p => p.1 == c)

/-- Replace every binding of column `c` by `(c, v)` (positions preserved). -/
def updateAll (r : Row) (c : String) (v : Cell) : Row :=
  r.map (fun p => if p.1 == c then (c, v) else p)

/-- Write value `v` into column `c` of row `r`: overwrite in place when the
binding exists, append otherwise (pandas column assignment). -/
def updateCell (r : Row) (c : String) (v : Cell) : Row :=
  if hasKey r c then updateAll r c v else r ++ [(c, v)]

/-- Remove every binding of column `c` from row `r`. -/
def dropCellRow (c : String) (r : Row) : Row :=
  r.filter (fun p => !(p.1 == c))

/-- Keep the rows satisfying `p` (pandas boolean-mask filtering preserves
order). -/
def filterRows (p : Row → Bool) (t : Table) : Table :=
  { t with rows := t.rows.filter p }

/-- Column assignment `df[c] = f(row)`: update every row, and append `c` to
the column list when it is new. -/
def setCol (c : String) (f : Row → Cell) (t : Table) : Table :=
  { cols := if c ∈ t.cols then t.cols else t.cols ++ [c],
    rows := t.rows.map (fun r => updateCell r c (f r)) }

/-- `df.drop(columns=[c])`. -/
def dropCol (c : String) (t : Table) : Table :=
  { cols := t.cols.filter (fun x => !(x == c)),
    rows := t.rows.map (dropCellRow c) }

/-- Digit-by-digit accumulator for `parseInt`. -/
def parseNatAux (acc : Nat) : List Char → Option Nat
  | [] => some acc
  | c :: cs => if c.isDigit then parseNatAux (acc * 10 + (c.toNat - '0'.toNat)) cs else none

/-- Parse a non-empty all-digit character list. -/
def parseNatDigits (l : List Char) : Option Nat :=
  if l.isEmpty then none else parseNatAux 0 l

/-- Executable stand-in for Python `int(...)` (and for the string parse of
`pd.to_datetime`): an optional minus sign followed by decimal digits.  Written
by structural recursion so that concrete instances evaluate inside the
kernel. -/
def parseInt (s : String) : Option Int :=
  match s.data with
  | [] => none
  | c :: cs =>
    if c = '-' then (parseNatDigits cs).map (fun n => -(Int.ofNat n))
    else (parseNatDigits (c :: cs)).map Int.ofNat

/-- `pd.to_numeric(col, errors='coerce')` on one cell: numbers stay, strings
parse to integers or become null, everything else becomes null. -/
def toNumeric : Cell → Cell
  | Cell.num n => Cell.num n
  | Cell.str s =>
    match parseInt s with
    | some n => Cell.num n
    | none => Cell.null
  | _ => Cell.null

/-- `pd.to_datetime(col, errors='coerce')` on one cell: parsed dates stay,
strings parse to a timestamp or become null (NaT), numbers are read as
timestamps, null stays null. -/
def toDatetime : Cell → Cell
  | Cell.date d => Cell.date d
  | Cell.num n => Cell.date n
  | Cell.str s =>
    match parseInt s with
    | some n => Cell.date n
    | none => Cell.null
  | Cell.null => Cell.null

/-- Insert-with-overwrite into a string-keyed association map (the behaviour
of Python dict assignment `m[k] = v`). -/
def mapInsert (m : List (String × Nat)) (k : String) (v : Nat) : List (String × Nat) :=
  if m.any (fun p => p.1 == k) then m.map (fun p => if p.1 == k then (k, v) else p)
  else m ++ [(k, v)]

/-- Dict lookup. -/
def mapLookup (m : List (String × Nat)) (k : String) : Option Nat :=
  (m.find? (fun p => p.1 == k)).map (fun p => p.2)

/-- Left-to-right construction of the priority dict
`{categoria: i + 1 for i, categoria in enumerate(categorias_permitidas)}`:
the accumulator `m` receives key `c` with value `i` for each list element,
later insertions overwriting earlier ones. -/
def prioridadeMapAux (m : List (String × Nat)) : List String → Nat → List (String × Nat)
  | [], _ => m
  | c :: cs, i => prioridadeMapAux (mapInsert m c i) cs (i + 1)

/-- The priority dict of line 91 of `raf.py`. -/
def prioridadeMap (cats : List String) : List (String × Nat) :=
  prioridadeMapAux [] cats 1

/-- The `Prioridade Motivo` cell assigned by
`df['CATEGORIA4'].map(prioridade_map)`: a dict hit gives the rank, a miss (or
a non-string category cell) gives null. -/
def prioCell (cats : List String) (r : Row) : Cell :=
  match getCell r "CATEGORIA4" with
  | Cell.str s =>
    match mapLookup (prioridadeMap cats) s with
    | some n => Cell.num (Int.ofNat n)
    | none => Cell.null
  | _ => Cell.null

/-- `df['CATEGORIA4'].isin(categorias_permitidas)` on one row: only a string
cell equal to a listed category passes. -/
def catAllowed (cats : List String) (r : Row) : Bool :=
  match getCell r "CATEGORIA4" with
  | Cell.str s => cats.contains s
  | _ => false

/-- Membership of a cell in a list of excluded integer payers
(`col.isin(pagadores_convertidos)`): only a numeric cell can match; in
particular null (NaN) never matches. -/
def cellInInts (cl : Cell) (exs : List Int) : Bool :=
  match cl with
  | Cell.num n => exs.contains n
  | _ => false

/-- `df['DATACRIACAOOS'] >= limite_data` on one cell: only a valid date can
pass the comparison. -/
def dateGE (cl : Cell) (limit : Int) : Bool :=
  match cl with
  | Cell.date d => decide (limit ≤ d)
  | _ => false

/-- Lines 36–40: locate the payer column, preferring `PAGADOR` and falling
back to `Pagador` (with a warning). -/
def payerCol (t : Table) : Option String :=
  if "PAGADOR" ∈ t.cols then some "PAGADOR"
  else if "Pagador" ∈ t.cols then some "Pagador"
  else none

/-- Step 1 (lines 34–58): payer exclusion.  Runs only when the exclusion list
is non-empty and a payer column exists.  All entries are parsed as integers
first (line 46); a parse failure raises `ValueError`, which is caught and
skips the step with the table untouched.  On success the payer column is
coerced to numeric (line 50) and the matching rows are dropped (line 53). -/
def step1 (t : Table) (pags : List String) : Table :=
  if pags.isEmpty then t
  else
    match payerCol t with
    | none => t
    | some c =>
      match pags.mapM parseInt with
      | none => t
      | some exs =>
        filterRows (fun r => !(cellInInts (getCell r c) exs))
          (setCol c (fun r => toNumeric (getCell r c)) t)

/-- Step 2 (line 64): drop rows whose churn type is the literal
`"Involuntário"`.  The column access is unguarded: a missing column raises
`KeyError`, modelled as `none`. -/
def step2 (t : Table) : Option Table :=
  if "Tipo de Churn" ∈ t.cols then
    some (filterRows (fun r => !(getCell r "Tipo de Churn" == Cell.str "Involuntário")) t)
  else none

/-- Step 3 (line 67): drop rows whose legal form is the literal `"C1"`;
unguarded column access as in step 2. -/
def step3 (t : Table) : Option Table :=
  if "FORMAJURIDICA" ∈ t.cols then
    some (filterRows (fun r => !(getCell r "FORMAJURIDICA" == Cell.str "C1")) t)
  else none

/-- Step 4 (lines 70–81): when the creation-date column exists, parse it
(line 74), drop the rows where parsing failed (line 75), and keep only the
rows dated within the last 60 days (line 78).  When the column is absent the
step is skipped with a warning. -/
def step4 (now : Int) (t : Table) : Table :=
  if "DATACRIACAOOS" ∈ t.cols then
    filterRows (fun r => dateGE (getCell r "DATACRIACAOOS") (now - 60))
      (filterRows (fun r => !(getCell r "DATACRIACAOOS" == Cell.null))
        (setCol "DATACRIACAOOS" (fun r => toDatetime (getCell r "DATACRIACAOOS")) t))
  else t

/-- Step 5 (lines 83–87): when the delinquency column exists, drop rows whose
status is `"I"`; otherwise skip with a warning. -/
def step5 (t : Table) : Table :=
  if "STATUSINADIMPLENTE" ∈ t.cols then
    filterRows (fun r => !(getCell r "STATUSINADIMPLENTE" == Cell.str "I")) t
  else t

/-- First sort-key component: 0 when the creation-date cell is a valid date,
1 otherwise (`na_position='last'`). -/
def dateFlag (r : Row) : Int :=
  match getCell r "DATACRIACAOOS" with
  | Cell.date _ => 0
  | _ => 1

/-- Second sort-key component: the negated date, so that ascending
lexicographic order realises `ascending=False` on the date. -/
def dateVal (r : Row) : Int :=
  match getCell r "DATACRIACAOOS" with
  | Cell.date d => -d
  | _ => 0

/-- Third sort-key component: 0 when the priority cell is numeric, 1
otherwise (`na_position='last'`). -/
def prioFlag (r : Row) : Int :=
  match getCell r "Prioridade Motivo" with
  | Cell.num _ => 0
  | _ => 1

/-- Fourth sort-key component: the priority value (`ascending=True`). -/
def prioVal (r : Row) : Int :=
  match getCell r "Prioridade Motivo" with
  | Cell.num n => n
  | _ => 0

/-- The full sort key of line 93. -/
def key4 (r : Row) : Int × Int × Int × Int :=
  (dateFlag r, dateVal r, prioFlag r, prioVal r)

/-- Lexicographic comparison of sort keys. -/
def le4 (a b : Int × Int × Int × Int) : Bool :=
  decide (a.1 < b.1) ||
    (a.1 == b.1 && (decide (a.2.1 < b.2.1) ||
      (a.2.1 == b.2.1 && (decide (a.2.2.1 < b.2.2.1) ||
        (a.2.2.1 == b.2.2.1 && decide (a.2.2.2 ≤ b.2.2.2))))))

/-- Row comparison realising
`sort_values(by=['DATACRIACAOOS', 'Prioridade Motivo'], ascending=[False, True])`. -/
def rowLE (r1 r2 : Row) : Bool :=
  le4 (key4 r1) (key4 r2)

/-- The row comparison as a decidable relation, for the sort. -/
def rowLEP (r1 r2 : Row) : Prop :=
  rowLE r1 r2 = true

instance : DecidableRel rowLEP :=
  fun a b => instDecidableEqBool (rowLE a b) true

/-- Sort the rows by the comparison above (a stable sort, written by
structural recursion so concrete instances evaluate inside the kernel). -/
def sortRows (t : Table) : Table :=
  { t with rows := List.insertionSort rowLEP t.rows }

/-- Step 6 (lines 89–97): when the category column exists, keep only the
allowed categories (line 90), assign the priority column (lines 91–92), sort
by date and priority (line 93) and drop the priority column (line 94).
`sort_values` names `DATACRIACAOOS` unconditionally, so a table without that
column raises `KeyError` here, modelled as `none`.  When the category column
is absent the step is skipped with a warning. -/
def step6 (cats : List String) (t : Table) : Option Table :=
  if "CATEGORIA4" ∈ t.cols then
    let t2 := setCol "Prioridade Motivo" (prioCell cats) (filterRows (catAllowed cats) t)
    if "DATACRIACAOOS" ∈ t2.cols then
      some (dropCol "Prioridade Motivo" (sortRows t2))
    else none
  else some t

/-- The whole pipeline `processar_dados_churn_com_motivos` (lines 19–99),
with `datetime.now()` lifted to the parameter `now`.  `none` models an
uncaught exception escaping to the caller. -/
def processar (df : Table) (cats pags : List String) (now : Int) : Option Table :=
  match step2 (step1 df pags) with
  | none => none
  | some t2 =>
    match step3 t2 with
    | none => none
    | some t3 => step6 cats (step5 (step4 now t3))

/-- The pipeline with step 6 cut off after step 5: what `processar` computes
up to the category stage.  It does not mention the allow-list at all. -/
def pipeline15 (df : Table) (pags : List String) (now : Int) : Option Table :=
  match step2 (step1 df pags) with
  | none => none
  | some t2 =>
    match step3 t2 with
    | none => none
    | some t3 => some (step5 (step4 now t3))

/-- The per-row payer coercion step 1 applies when it is active, identity
otherwise. -/
def payerFix (df : Table) (pags : List String) (r : Row) : Row :=
  if pags.isEmpty then r
  else
    match payerCol df with
    | none => r
    | some c =>
      match pags.mapM parseInt with
      | none => r
      | some _ => updateCell r c (toNumeric (getCell r c))

/-- The per-row date parse step 4 applies when the date column is present,
identity otherwise. -/
def dateFix (df : Table) (r : Row) : Row :=
  if "DATACRIACAOOS" ∈ df.cols then
    updateCell r "DATACRIACAOOS" (toDatetime (getCell r "DATACRIACAOOS"))
  else r

/-- The per-row transformation steps 1–5 apply to a surviving row: the payer
coercion when step 1 is active, then the date parse when the date column is
present. -/
def rowTransform15 (df : Table) (pags : List String) (r : Row) : Row :=
  dateFix df (payerFix df pags r)

/-- Last occurrence (0-based) of `s` in a list, `none` when absent. -/
def lastIdxOf? : List String → String → Option Nat
  | [], _ => none
  | c :: cs, s =>
    match lastIdxOf? cs s with
    | some i => some (i + 1)
    | none => if c = s then some 0 else none

/-! ## Row-level lemmas -/

theorem getCell_nil (c : String) : getCell [] c = Cell.null := rfl

theorem getCell_cons (p : String × Cell) (r : Row) (c : String) :
    getCell (p :: r) c = if p.1 == c then p.2 else getCell r c := by
  by_cases h : p.1 == c <;> simp [getCell, List.find?_cons, h]

theorem hasKey_nil (c : String) : hasKey [] c = false := rfl

theorem hasKey_cons (p : String × Cell) (r : Row) (c : String) :
    hasKey (p :: r) c = (p.1 == c || hasKey r c) := by
  simp [hasKey]

theorem hasKey_iff_exists (r : Row) (c : String) :
    hasKey r c = true ↔ ∃ q ∈ r, q.1 = c := by
  simp [hasKey, List.any_eq_true]

theorem hasKey_eq_false_iff (r : Row) (c : String) :
    hasKey r c = false ↔ ∀ q ∈ r, q.1 ≠ c := by
  simp [hasKey, List.any_eq_false]

theorem updateAll_cons (p : String × Cell) (r : Row) (c : String) (v : Cell) :
    updateAll (p :: r) c v = (if p.1 == c then (c, v) else p) :: updateAll r c v := by
  simp [updateAll]

theorem getCell_updateAll_self (r : Row) (c : String) (v : Cell)
    (hk : hasKey r c = true) : getCell (updateAll r c v) c = v := by
  induction r with
  | nil => simp [hasKey] at hk
  | cons p r ih =>
    rw [hasKey_cons] at hk
    rw [updateAll_cons]
    by_cases h : p.1 = c
    · simp [h, getCell_cons]
    · have hb : (p.1 == c) = false := beq_eq_false_iff_ne.mpr h
      rw [if_neg (by simp [hb]), getCell_cons, if_neg (by simp [hb])]
      exact ih (by simpa [hb] using hk)

theorem getCell_updateAll_ne (r : Row) (c c' : String) (v : Cell)
    (h : c' ≠ c) : getCell (updateAll r c v) c' = getCell r c' := by
  have hcc : (c == c') = false := beq_eq_false_iff_ne.mpr (Ne.symm h)
  induction r with
  | nil => rfl
  | cons p r ih =>
    rw [updateAll_cons]
    by_cases hp : p.1 = c
    · have hp2 : (p.1 == c') = false := by rw [hp]; exact hcc
      rw [if_pos (by simp [hp]), getCell_cons, getCell_cons]
      simp [hcc, hp2, ih]
    · rw [if_neg (by simp [hp]), getCell_cons, getCell_cons]
      by_cases hc : p.1 = c' <;> simp [hc, ih]

theorem getCell_append_single_self (r : Row) (c : String) (v : Cell)
    (hk : hasKey r c = false) : getCell (r ++ [(c, v)]) c = v := by
  induction r with
  | nil => simp [getCell]
  | cons p r ih =>
    rw [hasKey_cons] at hk
    have hp : (p.1 == c) = false := by
      cases h : (p.1 == c) <;> simp [h] at hk ⊢
    rw [List.cons_append, getCell_cons]
    simp only [hp, Bool.false_eq_true, ite_false]
    exact ih (by simpa [hp] using hk)

theorem getCell_append_single_ne (r : Row) (c c' : String) (v : Cell)
    (h : c' ≠ c) : getCell (r ++ [(c, v)]) c' = getCell r c' := by
  have hcc : (c == c') = false := beq_eq_false_iff_ne.mpr (Ne.symm h)
  induction r with
  | nil => simp [getCell, List.find?_cons, hcc]
  | cons p r ih =>
    rw [List.cons_append, getCell_cons, getCell_cons]
    by_cases hc : p.1 = c' <;> simp [hc, ih]

theorem getCell_updateCell_self (r : Row) (c : String) (v : Cell) :
    getCell (updateCell r c v) c = v := by
  unfold updateCell
  cases hk : hasKey r c with
  | true => simpa using getCell_updateAll_self r c v hk
  | false => simpa using getCell_append_single_self r c v hk

theorem getCell_updateCell_ne (r : Row) (c c' : String) (v : Cell)
    (h : c' ≠ c) : getCell (updateCell r c v) c' = getCell r c' := by
  unfold updateCell
  cases hk : hasKey r c with
  | true => simpa using getCell_updateAll_ne r c c' v h
  | false => simpa using getCell_append_single_ne r c c' v h

theorem getCell_dropCellRow_ne (r : Row) (c c' : String)
    (h : c' ≠ c) : getCell (dropCellRow c r) c' = getCell r c' := by
  induction r with
  | nil => rfl
  | cons p r ih =>
    by_cases hp : p.1 = c
    · have hp2 : (p.1 == c') = false := by
        rw [hp]; exact beq_eq_false_iff_ne.mpr (Ne.symm h)
      simp only [dropCellRow, List.filter_cons, hp, beq_self_eq_true, Bool.not_true,
        Bool.false_eq_true, ite_false]
      rw [getCell_cons]
      simp only [hp2, Bool.false_eq_true, ite_false]
      exact ih
    · have hb : (p.1 == c) = false := beq_eq_false_iff_ne.mpr hp
      simp only [dropCellRow, List.filter_cons, hb, Bool.not_false, ite_true]
      rw [getCell_cons, getCell_cons]
      by_cases hc : p.1 = c' <;> simp [hc]
      exact ih

/-- Row `r` is normalised at column `c`: it carries a `c`-binding and every
`c`-binding holds the value `getCell r c`.  Every row produced by a column
assignment has this shape at the assigned column. -/
def RowNormAt (r : Row) (c : String) : Prop :=
  hasKey r c = true ∧ ∀ q ∈ r, q.1 = c → q.2 = getCell r c

/-- Row `r` carries no binding at all for column `c`. -/
def NoKeyAt (r : Row) (c : String) : Prop :=
  ∀ q ∈ r, q.1 ≠ c

theorem mem_updateCell_elim {r : Row} {c : String} {v : Cell} {q : String × Cell}
    (h : q ∈ updateCell r c v) : q = (c, v) ∨ q ∈ r := by
  unfold updateCell at h
  split at h
  · rcases List.mem_map.mp h with ⟨q0, hq0, hq⟩
    by_cases hk : q0.1 = c
    · left; rw [← hq]; simp [hk]
    · right; rw [← hq]; simpa [beq_eq_false_iff_ne.mpr hk] using hq0
  · rcases List.mem_append.mp h with h1 | h1
    · right; exact h1
    · left; simpa using h1

theorem hasKey_updateCell_self (r : Row) (c : String) (v : Cell) :
    hasKey (updateCell r c v) c = true := by
  unfold updateCell
  split
  · next hk =>
    rcases (hasKey_iff_exists r c).mp hk with ⟨q, hq, hq1⟩
    refine (hasKey_iff_exists _ c).mpr ⟨(c, v), ?_, rfl⟩
    exact List.mem_map.mpr ⟨q, hq, by simp [hq1]⟩
  · refine (hasKey_iff_exists _ c).mpr ⟨(c, v), ?_, rfl⟩
    simp

theorem hasKey_updateCell_other (r : Row) (c c' : String) (v : Cell)
    (h : hasKey r c = true) : hasKey (updateCell r c' v) c = true := by
  by_cases hcc : c = c'
  · subst hcc; exact hasKey_updateCell_self r c v
  rcases (hasKey_iff_exists r c).mp h with ⟨q, hq, hq1⟩
  unfold updateCell
  split
  · refine (hasKey_iff_exists _ c).mpr ⟨q, ?_, hq1⟩
    refine List.mem_map.mpr ⟨q, hq, ?_⟩
    have : (q.1 == c') = false := beq_eq_false_iff_ne.mpr (by rw [hq1]; exact hcc)
    simp [this]
  · exact (hasKey_iff_exists _ c).mpr ⟨q, List.mem_append_left _ hq, hq1⟩

theorem rowNormAt_updateCell_self (r : Row) (c : String) (v : Cell) :
    RowNormAt (updateCell r c v) c := by
  refine ⟨hasKey_updateCell_self r c v, ?_⟩
  intro q hq hq1
  rw [getCell_updateCell_self]
  unfold updateCell at hq
  split at hq
  · rcases List.mem_map.mp hq with ⟨q0, _, hq0⟩
    by_cases hk : q0.1 = c
    · rw [← hq0]; simp [hk]
    · rw [← hq0] at hq1; simp [beq_eq_false_iff_ne.mpr hk] at hq1; exact absurd hq1 hk
  · next hk =>
    rcases List.mem_append.mp hq with h1 | h1
    · exact absurd hq1 ((hasKey_eq_false_iff r c).mp (by simpa using hk) q h1)
    · simp at h1; rw [h1]

theorem rowNormAt_updateCell_other {r : Row} {c : String} (c' : String) (v : Cell)
    (hne : c ≠ c') (h : RowNormAt r c) : RowNormAt (updateCell r c' v) c := by
  obtain ⟨hk, hv⟩ := h
  refine ⟨hasKey_updateCell_other r c c' v hk, ?_⟩
  intro q hq hq1
  rw [getCell_updateCell_ne r c' c v hne]
  rcases mem_updateCell_elim hq with h1 | h1
  · rw [h1] at hq1; simp at hq1; exact absurd hq1.symm hne
  · exact hv q h1 hq1

theorem rowNormAt_dropCellRow {r : Row} {c : String} (c' : String)
    (hne : c ≠ c') (h : RowNormAt r c) : RowNormAt (dropCellRow c' r) c := by
  obtain ⟨hk, hv⟩ := h
  constructor
  · rcases (hasKey_iff_exists r c).mp hk with ⟨q, hq, hq1⟩
    refine (hasKey_iff_exists _ c).mpr ⟨q, ?_, hq1⟩
    refine List.mem_filter.mpr ⟨hq, ?_⟩
    have hqc : q.1 ≠ c' := by rw [hq1]; exact hne
    simp [beq_eq_false_iff_ne.mpr hqc]
  · intro q hq hq1
    rw [getCell_dropCellRow_ne r c' c hne]
    exact hv q (List.mem_filter.mp hq).1 hq1

theorem noKeyAt_dropCellRow (r : Row) (c : String) :
    NoKeyAt (dropCellRow c r) c := by
  intro q hq
  have := (List.mem_filter.mp hq).2
  simpa [beq_eq_false_iff_ne] using this

theorem noKeyAt_updateCell_other {r : Row} {c : String} (c' : String) (v : Cell)
    (hne : c' ≠ c) (h : NoKeyAt r c) : NoKeyAt (updateCell r c' v) c := by
  intro q hq
  rcases mem_updateCell_elim hq with h1 | h1
  · rw [h1]; simpa using hne
  · exact h q h1

theorem updateCell_eq_self {r : Row} {c : String} (h : RowNormAt r c) :
    updateCell r c (getCell r c) = r := by
  obtain ⟨hk, hv⟩ := h
  unfold updateCell
  rw [if_pos hk]
  unfold updateAll
  have : ∀ q ∈ r, (fun p => if p.1 == c then (c, getCell r c) else p) q = id q := by
    intro q hq
    by_cases h1 : q.1 = c
    · have h2 : q.2 = getCell r c := hv q hq h1
      have h3 : (q.1 == c) = true := by simp [h1]
      show (if (q.1 == c) = true then (c, getCell r c) else q) = id q
      rw [id_eq, if_pos h3, ← h2, ← h1]
    · simp [beq_eq_false_iff_ne.mpr h1]
  rw [List.map_congr_left this, List.map_id]

theorem dropCellRow_updateAll (r : Row) (c : String) (v : Cell) :
    dropCellRow c (updateAll r c v) = dropCellRow c r := by
  induction r with
  | nil => rfl
  | cons p r ih =>
    rw [updateAll_cons]
    by_cases hp : p.1 = c
    · rw [if_pos (by simp [hp])]
      simp only [dropCellRow, List.filter_cons] at ih ⊢
      simp [hp, ih]
    · rw [if_neg (by simp [hp])]
      simp only [dropCellRow, List.filter_cons] at ih ⊢
      simp [beq_eq_false_iff_ne.mpr hp, ih]

theorem dropCellRow_updateCell (r : Row) (c : String) (v : Cell) :
    dropCellRow c (updateCell r c v) = dropCellRow c r := by
  unfold updateCell
  split
  · exact dropCellRow_updateAll r c v
  · unfold dropCellRow
    rw [List.filter_append]
    simp [dropCellRow]

theorem dropCellRow_eq_self {r : Row} {c : String} (h : NoKeyAt r c) :
    dropCellRow c r = r := by
  unfold dropCellRow
  rw [List.filter_eq_self]
  intro q hq
  simp [beq_eq_false_iff_ne.mpr (h q hq)]

/-! ## Table-level lemmas -/

theorem mem_filterRows {p : Row → Bool} {t : Table} {r : Row} :
    r ∈ (filterRows p t).rows ↔ r ∈ t.rows ∧ p r = true :=
  List.mem_filter

theorem cols_filterRows (p : Row → Bool) (t : Table) :
    (filterRows p t).cols = t.cols := rfl

theorem filterRows_eq_self {p : Row → Bool} {t : Table}
    (h : ∀ r ∈ t.rows, p r = true) : filterRows p t = t := by
  unfold filterRows
  have : t.rows.filter p = t.rows := List.filter_eq_self.mpr h
  rw [this]

theorem mem_setCol {c : String} {f : Row → Cell} {t : Table} {r' : Row} :
    r' ∈ (setCol c f t).rows ↔ ∃ r ∈ t.rows, r' = updateCell r c (f r) := by
  simp only [setCol, List.mem_map]
  constructor
  · rintro ⟨r, hr, rfl⟩; exact ⟨r, hr, rfl⟩
  · rintro ⟨r, hr, rfl⟩; exact ⟨r, hr, rfl⟩

theorem cols_setCol_mem {c : String} {f : Row → Cell} {t : Table}
    (h : c ∈ t.cols) : (setCol c f t).cols = t.cols := by
  simp [setCol, h]

theorem cols_setCol_not_mem {c : String} {f : Row → Cell} {t : Table}
    (h : c ∉ t.cols) : (setCol c f t).cols = t.cols ++ [c] := by
  simp [setCol, h]

theorem mem_cols_setCol {c c' : String} {f : Row → Cell} {t : Table} :
    c ∈ (setCol c' f t).cols ↔ (c ∈ t.cols ∨ c = c') := by
  unfold setCol
  split
  · next h =>
    simp only
    constructor
    · exact Or.inl
    · rintro (h1 | rfl)
      · exact h1
      · exact h
  · simp

theorem setCol_eq_self {c : String} {f : Row → Cell} {t : Table}
    (hc : c ∈ t.cols) (h : ∀ r ∈ t.rows, updateCell r c (f r) = r) :
    setCol c f t = t := by
  unfold setCol
  rw [if_pos hc]
  have : t.rows.map (fun r => updateCell r c (f r)) = t.rows := by
    rw [List.map_congr_left h]
    exact List.map_id' t.rows
  rw [this]

theorem mem_dropCol {c : String} {t : Table} {r' : Row} :
    r' ∈ (dropCol c t).rows ↔ ∃ r ∈ t.rows, r' = dropCellRow c r := by
  simp only [dropCol, List.mem_map]
  constructor
  · rintro ⟨r, hr, rfl⟩; exact ⟨r, hr, rfl⟩
  · rintro ⟨r, hr, rfl⟩; exact ⟨r, hr, rfl⟩

theorem cols_dropCol (c : String) (t : Table) :
    (dropCol c t).cols = t.cols.filter (fun x => !(x == c)) := rfl

theorem mem_cols_dropCol {c c' : String} {t : Table} (h : c' ≠ c) :
    (c' ∈ (dropCol c t).cols ↔ c' ∈ t.cols) := by
  rw [cols_dropCol]
  constructor
  · intro hm; exact (List.mem_filter.mp hm).1
  · intro hm; exact List.mem_filter.mpr ⟨hm, by simp [beq_eq_false_iff_ne.mpr h]⟩

theorem not_mem_cols_dropCol (c : String) (t : Table) :
    c ∉ (dropCol c t).cols := by
  rw [cols_dropCol]
  intro hm
  have := (List.mem_filter.mp hm).2
  simp at this

theorem dropCol_eq_self {c : String} {t : Table}
    (hc : ∀ c' ∈ t.cols, c' ≠ c) (h : ∀ r ∈ t.rows, NoKeyAt r c) :
    dropCol c t = t := by
  unfold dropCol
  have h1 : t.cols.filter (fun x => !(x == c)) = t.cols := by
    rw [List.filter_eq_self]
    intro a ha
    simp [beq_eq_false_iff_ne.mpr (hc a ha)]
  have h2 : t.rows.map (dropCellRow c) = t.rows := by
    rw [List.map_congr_left (fun r hr => dropCellRow_eq_self (h r hr))]
    exact List.map_id' t.rows
  rw [h1, h2]

theorem mem_sortRows {t : Table} {r : Row} :
    r ∈ (sortRows t).rows ↔ r ∈ t.rows := by
  unfold sortRows
  exact (List.perm_insertionSort rowLEP t.rows).mem_iff

theorem cols_sortRows (t : Table) : (sortRows t).cols = t.cols := rfl

theorem sortRows_eq_self {t : Table} (h : t.rows.Pairwise (fun a b => rowLE a b = true)) :
    sortRows t = t := by
  unfold sortRows
  have hs : List.Sorted rowLEP t.rows := h
  rw [hs.insertionSort_eq]

/-! ## Sort-comparison lemmas -/

theorem le4_trans (a b c : Int × Int × Int × Int)
    (h1 : le4 a b = true) (h2 : le4 b c = true) : le4 a c = true := by
  obtain ⟨a1, a2, a3, a4⟩ := a
  obtain ⟨b1, b2, b3, b4⟩ := b
  obtain ⟨c1, c2, c3, c4⟩ := c
  simp only [le4, Bool.or_eq_true, Bool.and_eq_true, decide_eq_true_eq, beq_iff_eq] at h1 h2 ⊢
  omega

theorem le4_total (a b : Int × Int × Int × Int) :
    (le4 a b || le4 b a) = true := by
  obtain ⟨a1, a2, a3, a4⟩ := a
  obtain ⟨b1, b2, b3, b4⟩ := b
  simp only [le4, Bool.or_eq_true, Bool.and_eq_true, decide_eq_true_eq, beq_iff_eq]
  omega

theorem rowLE_trans (a b c : Row) (h1 : rowLE a b = true) (h2 : rowLE b c = true) :
    rowLE a c = true :=
  le4_trans _ _ _ h1 h2

theorem rowLE_total (a b : Row) : (rowLE a b || rowLE b a) = true :=
  le4_total _ _

instance : IsTrans Row rowLEP :=
  ⟨fun a b c h1 h2 => rowLE_trans a b c h1 h2⟩

instance : IsTotal Row rowLEP := by
  refine ⟨fun a b => ?_⟩
  have := rowLE_total a b
  rcases Bool.or_eq_true_iff.mp this with h | h
  · exact Or.inl h
  · exact Or.inr h

theorem sortRows_pairwise (t : Table) :
    (sortRows t).rows.Pairwise (fun a b => rowLE a b = true) := by
  unfold sortRows
  exact List.sorted_insertionSort rowLEP t.rows

/-- The sort key of a row is determined by its date and priority cells. -/
theorem key4_congr {a b : Row}
    (hd : getCell a "DATACRIACAOOS" = getCell b "DATACRIACAOOS")
    (hp : getCell a "Prioridade Motivo" = getCell b "Prioridade Motivo") :
    key4 a = key4 b := by
  unfold key4 dateFlag dateVal prioFlag prioVal
  rw [hd, hp]

/-- Extracting the semantic ordering from the comparison, for rows whose date
and priority cells are valid. -/
theorem le4_dates (d1 d2 p1 p2 : Int)
    (h : le4 (0, -d1, 0, p1) (0, -d2, 0, p2) = true) :
    d2 ≤ d1 ∧ (d1 = d2 → p1 ≤ p2) := by
  simp only [le4, Bool.or_eq_true, Bool.and_eq_true, decide_eq_true_eq, beq_iff_eq] at h
  omega

theorem key4_of_cells {r : Row} {d p : Int}
    (hd : getCell r "DATACRIACAOOS" = Cell.date d)
    (hp : getCell r "Prioridade Motivo" = Cell.num p) :
    key4 r = (0, -d, 0, p) := by
  unfold key4 dateFlag dateVal prioFlag prioVal
  rw [hd, hp]

/-! ## Priority-map lemmas -/

theorem find?_replaceKey (m : List (String × Nat)) (k : String) (v : Nat)
    (hk : m.any (fun p => p.1 == k) = true) :
    (m.map (fun p => if p.1 == k then (k, v) else p)).find? (fun p => p.1 == k) =
      some (k, v) := by
  induction m with
  | nil => simp at hk
  | cons p m ih =>
    by_cases hp : p.1 = k
    · simp [List.find?_cons, hp]
    · have hb : (p.1 == k) = false := beq_eq_false_iff_ne.mpr hp
      simp only [List.any_cons, hb, Bool.false_or] at hk
      simp only [List.map_cons, hb, Bool.false_eq_true, ite_false, List.find?_cons, hb]
      exact ih hk

theorem mapLookup_mapInsert_self (m : List (String × Nat)) (k : String) (v : Nat) :
    mapLookup (mapInsert m k v) k = some v := by
  unfold mapInsert
  split
  · next hk =>
    unfold mapLookup
    rw [find?_replaceKey m k v hk]
    rfl
  · next hk =>
    unfold mapLookup
    rw [List.find?_append]
    have h1 : m.find? (fun p => p.1 == k) = none := by
      rw [List.find?_eq_none]
      intro q hq
      by_contra hc
      exact hk (List.any_eq_true.mpr ⟨q, hq, by simpa using hc⟩)
    rw [h1]
    simp only [Option.none_or, List.find?_cons, beq_self_eq_true]
    rfl

theorem find?_map_ne (m : List (String × Nat)) (k k' : String) (v : Nat)
    (h : k' ≠ k) :
    (m.map (fun p => if p.1 == k then (k, v) else p)).find? (fun p => p.1 == k') =
      m.find? (fun p => p.1 == k') := by
  induction m with
  | nil => rfl
  | cons p m ih =>
    by_cases hp : p.1 = k
    · have hkk : (k == k') = false := beq_eq_false_iff_ne.mpr (Ne.symm h)
      have hp2 : (p.1 == k') = false := by rw [hp]; exact hkk
      simp only [List.map_cons, hp, beq_self_eq_true, ite_true, List.find?_cons, hkk,
        hp2]
      exact ih
    · have hb : (p.1 == k) = false := beq_eq_false_iff_ne.mpr hp
      simp only [List.map_cons, hb, Bool.false_eq_true, ite_false, List.find?_cons]
      cases hc : (p.1 == k') with
      | true => rfl
      | false => exact ih

theorem mapLookup_mapInsert_ne (m : List (String × Nat)) (k k' : String) (v : Nat)
    (h : k' ≠ k) : mapLookup (mapInsert m k v) k' = mapLookup m k' := by
  unfold mapInsert mapLookup
  split
  · rw [find?_map_ne m k k' v h]
  · rw [List.find?_append]
    have : [(k, v)].find? (fun p => p.1 == k') = none := by
      simp [List.find?_cons, beq_eq_false_iff_ne.mpr (Ne.symm h)]
    rw [this]
    cases m.find? (fun p => p.1 == k') <;> rfl

theorem lastIdxOf?_cons (c : String) (cs : List String) (s : String) :
    lastIdxOf? (c :: cs) s =
      match lastIdxOf? cs s with
      | some i => some (i + 1)
      | none => if c = s then some 0 else none := rfl

theorem lastIdxOf?_aux_lookup (cats : List String) :
    ∀ (m : List (String × Nat)) (i : Nat) (s : String),
      mapLookup (prioridadeMapAux m cats i) s =
        match lastIdxOf? cats s with
        | some j => some (i + j)
        | none => mapLookup m s := by
  induction cats with
  | nil => intro m i s; rfl
  | cons c cs ih =>
    intro m i s
    show mapLookup (prioridadeMapAux (mapInsert m c i) cs (i + 1)) s = _
    rw [ih (mapInsert m c i) (i + 1) s, lastIdxOf?_cons]
    cases h : lastIdxOf? cs s with
    | some j =>
      simp only [Option.some.injEq]
      omega
    | none =>
      simp only
      by_cases hc : c = s
      · subst hc
        rw [if_pos rfl, mapLookup_mapInsert_self]
        rfl
      · rw [if_neg hc]
        exact mapLookup_mapInsert_ne m c s i (Ne.symm hc)

/-- The rank the priority dict assigns to `s` is one more than the 0-based
index of the last occurrence of `s` in the allow-list. -/
theorem mapLookup_prioridadeMap (cats : List String) (s : String) :
    mapLookup (prioridadeMap cats) s = (lastIdxOf? cats s).map (fun j => j + 1) := by
  unfold prioridadeMap
  rw [lastIdxOf?_aux_lookup cats [] 1 s]
  cases h : lastIdxOf? cats s with
  | some j =>
    simp only [Option.map_some', Option.some.injEq]
    omega
  | none => rfl

theorem lastIdxOf?_isSome_iff (cats : List String) (s : String) :
    (lastIdxOf? cats s).isSome = true ↔ s ∈ cats := by
  induction cats with
  | nil => simp [lastIdxOf?]
  | cons c cs ih =>
    unfold lastIdxOf?
    cases h : lastIdxOf? cs s with
    | some j =>
      simp only [Option.isSome_some, true_iff]
      have : s ∈ cs := ih.mp (by rw [h]; rfl)
      exact List.mem_cons_of_mem c this
    | none =>
      by_cases hc : c = s
      · simp [hc]
      · rw [if_neg hc]
        simp only [Option.isSome_none, Bool.false_eq_true, false_iff]
        intro hm
        rcases List.mem_cons.mp hm with h1 | h1
        · exact hc h1.symm
        · have := ih.mpr h1
          rw [h] at this
          simp at this

theorem lastIdxOf?_get (cats : List String) (s : String) (j : Nat)
    (h : lastIdxOf? cats s = some j) : cats.get? j = some s := by
  induction cats generalizing j with
  | nil => simp [lastIdxOf?] at h
  | cons c cs ih =>
    unfold lastIdxOf? at h
    cases h2 : lastIdxOf? cs s with
    | some i =>
      rw [h2] at h
      simp only [Option.some.injEq] at h
      rw [← h]
      simpa using ih i h2
    | none =>
      rw [h2] at h
      simp only at h
      by_cases hc : c = s
      · rw [if_pos hc] at h
        simp only [Option.some.injEq] at h
        rw [← h]
        simp [hc]
      · rw [if_neg hc] at h
        simp at h

/-! ## Step-level lemmas -/

theorem payerCol_mem {t : Table} {c : String} (h : payerCol t = some c) :
    c ∈ t.cols := by
  unfold payerCol at h
  split at h
  · next h1 => cases h; exact h1
  · split at h
    · next h1 => cases h; exact h1
    · cases h

theorem cols_step1 (t : Table) (pags : List String) :
    (step1 t pags).cols = t.cols := by
  unfold step1
  split
  · rfl
  · cases hp : payerCol t with
    | none => rfl
    | some c =>
      cases pags.mapM parseInt with
      | none => rfl
      | some exs =>
        simp only [cols_filterRows]
        exact cols_setCol_mem (payerCol_mem hp)

theorem step1_nil (t : Table) : step1 t [] = t := rfl

theorem step1_skip_parse {pags : List String} (t : Table)
    (h : pags.mapM parseInt = none) : step1 t pags = t := by
  unfold step1
  split
  · rfl
  · cases payerCol t with
    | none => rfl
    | some c => rw [h]

theorem step2_some {t : Table} (h : "Tipo de Churn" ∈ t.cols) :
    step2 t =
      some (filterRows (fun r => !(getCell r "Tipo de Churn" == Cell.str "Involuntário")) t) := by
  unfold step2
  rw [if_pos h]

theorem step2_none {t : Table} (h : "Tipo de Churn" ∉ t.cols) :
    step2 t = none := by
  unfold step2
  rw [if_neg h]

theorem step2_elim {t u : Table} (h : step2 t = some u) :
    "Tipo de Churn" ∈ t.cols ∧
      u = filterRows (fun r => !(getCell r "Tipo de Churn" == Cell.str "Involuntário")) t := by
  unfold step2 at h
  split at h
  · next h1 => exact ⟨h1, by cases h; rfl⟩
  · cases h

theorem step3_some {t : Table} (h : "FORMAJURIDICA" ∈ t.cols) :
    step3 t =
      some (filterRows (fun r => !(getCell r "FORMAJURIDICA" == Cell.str "C1")) t) := by
  unfold step3
  rw [if_pos h]

theorem step3_none {t : Table} (h : "FORMAJURIDICA" ∉ t.cols) :
    step3 t = none := by
  unfold step3
  rw [if_neg h]

theorem step3_elim {t u : Table} (h : step3 t = some u) :
    "FORMAJURIDICA" ∈ t.cols ∧
      u = filterRows (fun r => !(getCell r "FORMAJURIDICA" == Cell.str "C1")) t := by
  unfold step3 at h
  split at h
  · next h1 => exact ⟨h1, by cases h; rfl⟩
  · cases h

theorem cols_step4 (now : Int) (t : Table) : (step4 now t).cols = t.cols := by
  unfold step4
  split
  · next h => simp only [cols_filterRows]; exact cols_setCol_mem h
  · rfl

theorem cols_step5 (t : Table) : (step5 t).cols = t.cols := by
  unfold step5
  split <;> rfl

theorem step4_rows_origin (now : Int) (t : Table) :
    ∀ r' ∈ (step4 now t).rows, ∃ r ∈ t.rows,
      ∀ c, c ≠ "DATACRIACAOOS" → getCell r' c = getCell r c := by
  intro r' hr'
  unfold step4 at hr'
  split at hr'
  · have h1 := (mem_filterRows.mp hr').1
    have h2 := (mem_filterRows.mp h1).1
    rcases mem_setCol.mp h2 with ⟨r, hr, rfl⟩
    exact ⟨r, hr, fun c hc => getCell_updateCell_ne r _ c _ hc⟩
  · exact ⟨r', hr', fun c _ => rfl⟩

theorem step4_rows_date {now : Int} {t : Table} (hd : "DATACRIACAOOS" ∈ t.cols) :
    ∀ r ∈ (step4 now t).rows,
      ∃ d, getCell r "DATACRIACAOOS" = Cell.date d ∧ now - 60 ≤ d := by
  intro r hr
  unfold step4 at hr
  rw [if_pos hd] at hr
  have h2 := (mem_filterRows.mp hr).2
  cases hcell : getCell r "DATACRIACAOOS" with
  | date d => rw [hcell] at h2; exact ⟨d, rfl, by simpa [dateGE] using h2⟩
  | str s => rw [hcell] at h2; simp [dateGE] at h2
  | num n => rw [hcell] at h2; simp [dateGE] at h2
  | null => rw [hcell] at h2; simp [dateGE] at h2

theorem step5_rows_subset (t : Table) : ∀ r ∈ (step5 t).rows, r ∈ t.rows := by
  intro r hr
  unfold step5 at hr
  split at hr
  · exact (mem_filterRows.mp hr).1
  · exact hr

theorem step5_rows_status {t : Table} (h : "STATUSINADIMPLENTE" ∈ t.cols) :
    ∀ r ∈ (step5 t).rows,
      (getCell r "STATUSINADIMPLENTE" == Cell.str "I") = false := by
  intro r hr
  unfold step5 at hr
  rw [if_pos h] at hr
  have := (mem_filterRows.mp hr).2
  simpa using this

theorem step6_skip {cats : List String} {t : Table} (h : "CATEGORIA4" ∉ t.cols) :
    step6 cats t = some t := by
  unfold step6
  rw [if_neg h]

theorem step6_elim {cats : List String} {t u : Table}
    (hcat : "CATEGORIA4" ∈ t.cols) (h : step6 cats t = some u) :
    "DATACRIACAOOS" ∈ t.cols ∧
      u = dropCol "Prioridade Motivo"
            (sortRows (setCol "Prioridade Motivo" (prioCell cats)
              (filterRows (catAllowed cats) t))) := by
  unfold step6 at h
  rw [if_pos hcat] at h
  simp only at h
  split at h
  · next hd =>
    refine ⟨?_, by cases h; rfl⟩
    rcases mem_cols_setCol.mp hd with h1 | h1
    · exact h1
    · simp at h1
  · cases h

theorem catAllowed_congr {cats : List String} {a b : Row}
    (h : getCell a "CATEGORIA4" = getCell b "CATEGORIA4") :
    catAllowed cats a = catAllowed cats b := by
  unfold catAllowed
  rw [h]

theorem prioCell_congr {cats : List String} {a b : Row}
    (h : getCell a "CATEGORIA4" = getCell b "CATEGORIA4") :
    prioCell cats a = prioCell cats b := by
  unfold prioCell
  rw [h]

/-- The sort key of an output row of step 6, recomputed from the category
column (the priority column itself is dropped before the table is
returned). -/
def outKey (cats : List String) (r : Row) : Int × Int × Int × Int :=
  key4 (updateCell r "Prioridade Motivo" (prioCell cats r))

theorem step6_rows_origin {cats : List String} {t u : Table}
    (h : step6 cats t = some u) :
    ∀ r' ∈ u.rows, ∃ r ∈ t.rows,
      ∀ c, c ≠ "Prioridade Motivo" → getCell r' c = getCell r c := by
  intro r' hr'
  by_cases hcat : "CATEGORIA4" ∈ t.cols
  · obtain ⟨-, rfl⟩ := step6_elim hcat h
    rcases mem_dropCol.mp hr' with ⟨x, hx, rfl⟩
    have hx2 : x ∈ (setCol "Prioridade Motivo" (prioCell cats)
        (filterRows (catAllowed cats) t)).rows := mem_sortRows.mp hx
    rcases mem_setCol.mp hx2 with ⟨r, hr, rfl⟩
    refine ⟨r, (mem_filterRows.mp hr).1, ?_⟩
    intro c hc
    rw [getCell_dropCellRow_ne _ _ c hc, getCell_updateCell_ne _ _ c _ hc]
  · rw [step6_skip hcat] at h
    cases h
    exact ⟨r', hr', fun c _ => rfl⟩

theorem step6_rows_cat {cats : List String} {t u : Table}
    (hcat : "CATEGORIA4" ∈ t.cols) (h : step6 cats t = some u) :
    ∀ r' ∈ u.rows, catAllowed cats r' = true := by
  intro r' hr'
  obtain ⟨-, rfl⟩ := step6_elim hcat h
  rcases mem_dropCol.mp hr' with ⟨x, hx, rfl⟩
  have hx2 : x ∈ (setCol "Prioridade Motivo" (prioCell cats)
      (filterRows (catAllowed cats) t)).rows := mem_sortRows.mp hx
  rcases mem_setCol.mp hx2 with ⟨r, hr, rfl⟩
  have hcatr := (mem_filterRows.mp hr).2
  have hCne : ("CATEGORIA4" : String) ≠ "Prioridade Motivo" := by decide
  have hcc : getCell (dropCellRow "Prioridade Motivo"
      (updateCell r "Prioridade Motivo" (prioCell cats r))) "CATEGORIA4" =
      getCell r "CATEGORIA4" := by
    rw [getCell_dropCellRow_ne _ _ _ hCne, getCell_updateCell_ne _ _ _ _ hCne]
  rw [catAllowed_congr hcc]
  exact hcatr

/-- Rows surviving step 6 are sorted with respect to the recomputed key. -/
theorem step6_rows_sorted {cats : List String} {t u : Table}
    (hcat : "CATEGORIA4" ∈ t.cols) (h : step6 cats t = some u) :
    u.rows.Pairwise (fun a b => le4 (outKey cats a) (outKey cats b) = true) := by
  obtain ⟨-, rfl⟩ := step6_elim hcat h
  have hCne : ("CATEGORIA4" : String) ≠ "Prioridade Motivo" := by decide
  have hDne : ("DATACRIACAOOS" : String) ≠ "Prioridade Motivo" := by decide
  set t1 := filterRows (catAllowed cats) t with ht1
  set t2 := setCol "Prioridade Motivo" (prioCell cats) t1 with ht2
  have hsorted := sortRows_pairwise t2
  have hkey : ∀ x ∈ (sortRows t2).rows, outKey cats (dropCellRow "Prioridade Motivo" x) = key4 x := by
    intro x hx
    rcases mem_setCol.mp (mem_sortRows.mp hx) with ⟨r, _, rfl⟩
    set y := dropCellRow "Prioridade Motivo" (updateCell r "Prioridade Motivo" (prioCell cats r))
      with hy
    have hcat_y : getCell y "CATEGORIA4" = getCell r "CATEGORIA4" := by
      rw [hy, getCell_dropCellRow_ne _ _ _ hCne, getCell_updateCell_ne _ _ _ _ hCne]
    have hdate_y : getCell y "DATACRIACAOOS" = getCell r "DATACRIACAOOS" := by
      rw [hy, getCell_dropCellRow_ne _ _ _ hDne, getCell_updateCell_ne _ _ _ _ hDne]
    unfold outKey
    apply key4_congr
    · rw [getCell_updateCell_ne _ _ _ _ hDne, hdate_y,
        getCell_updateCell_ne _ _ _ _ hDne]
    · rw [getCell_updateCell_self, getCell_updateCell_self,
        prioCell_congr hcat_y]
  show ((sortRows t2).rows.map (dropCellRow "Prioridade Motivo")).Pairwise _
  rw [List.pairwise_map]
  refine List.Pairwise.imp_of_mem ?_ hsorted
  intro a b ha hb hab
  rw [hkey a ha, hkey b hb]
  exact hab

/-! ## Pipeline plumbing -/

theorem processar_elim {df out : Table} {cats pags : List String} {now : Int}
    (h : processar df cats pags now = some out) :
    ∃ t2 t3, step2 (step1 df pags) = some t2 ∧ step3 t2 = some t3 ∧
      step6 cats (step5 (step4 now t3)) = some out := by
  unfold processar at h
  cases h2 : step2 (step1 df pags) with
  | none => rw [h2] at h; cases h
  | some t2 =>
    rw [h2] at h
    dsimp only at h
    cases h3 : step3 t2 with
    | none => rw [h3] at h; cases h
    | some t3 =>
      rw [h3] at h
      dsimp only at h
      exact ⟨t2, t3, rfl, h3, h⟩

theorem cols_t3 {df t2 t3 : Table} {pags : List String}
    (h2 : step2 (step1 df pags) = some t2) (h3 : step3 t2 = some t3) :
    t3.cols = df.cols := by
  obtain ⟨-, rfl⟩ := step3_elim h3
  obtain ⟨-, rfl⟩ := step2_elim h2
  simp only [cols_filterRows, cols_step1]

theorem cols_t5 (now : Int) (t3 : Table) :
    (step5 (step4 now t3)).cols = t3.cols := by
  rw [cols_step5, cols_step4]

theorem mem_rows_t3 {df t2 t3 : Table} {pags : List String}
    (h2 : step2 (step1 df pags) = some t2) (h3 : step3 t2 = some t3) :
    ∀ r ∈ t3.rows, r ∈ (step1 df pags).rows := by
  obtain ⟨-, rfl⟩ := step3_elim h3
  obtain ⟨-, rfl⟩ := step2_elim h2
  intro r hr
  exact (mem_filterRows.mp (mem_filterRows.mp hr).1).1

theorem payerCol_cases {t : Table} {c : String} (h : payerCol t = some c) :
    c = "PAGADOR" ∨ c = "Pagador" := by
  unfold payerCol at h
  split at h
  · cases h; exact Or.inl rfl
  · split at h
    · cases h; exact Or.inr rfl
    · cases h

theorem cellInInts_false_iff (cl : Cell) (exs : List Int) :
    cellInInts cl exs = false ↔ ∀ k ∈ exs, cl ≠ Cell.num k := by
  cases cl with
  | num n =>
    simp only [cellInInts, List.contains, List.elem_eq_mem, decide_eq_false_iff_not]
    constructor
    · intro hn k hk he
      apply hn
      cases he
      exact hk
    · intro h hn
      exact h n hn rfl
  | str s => simp [cellInInts]
  | date d => simp [cellInInts]
  | null => simp [cellInInts]

theorem step1_active {t : Table} {pags : List String} {c : String} {exs : List Int}
    (hemp : pags.isEmpty = false) (hc : payerCol t = some c)
    (hexs : pags.mapM parseInt = some exs) :
    step1 t pags =
      filterRows (fun r => !(cellInInts (getCell r c) exs))
        (setCol c (fun r => toNumeric (getCell r c)) t) := by
  unfold step1
  rw [hc, hexs]
  simp [hemp]

theorem filterRows_filterRows (p q : Row → Bool) (t : Table) :
    filterRows p (filterRows q t) = filterRows (fun r => q r && p r) t := by
  unfold filterRows
  simp only
  congr 1
  rw [List.filter_filter]
  exact List.filter_congr (fun a _ => Bool.and_comm (p a) (q a))

theorem filter_of_map_eq {l kept : List Row} {f : Row → Row} (q : Row → Bool)
    (h : l = kept.map f) :
    ∃ kept2 : List Row, List.Sublist kept2 kept ∧ l.filter q = kept2.map f := by
  subst h
  exact ⟨kept.filter (q ∘ f), List.filter_sublist _, List.filter_map f kept⟩

theorem rows_step1_transform (df : Table) (pags : List String) :
    ∃ kept : List Row, List.Sublist kept df.rows ∧
      (step1 df pags).rows = kept.map (payerFix df pags) := by
  by_cases hemp : pags.isEmpty = true
  · have hstep : step1 df pags = df := by unfold step1; rw [if_pos hemp]
    have hfix : ∀ r ∈ df.rows, payerFix df pags r = r := fun r _ => by
      unfold payerFix; rw [if_pos hemp]
    refine ⟨df.rows, List.Sublist.refl _, ?_⟩
    rw [hstep, List.map_congr_left hfix, List.map_id']
  · have hemp' : pags.isEmpty = false := by
      cases h : pags.isEmpty
      · rfl
      · exact absurd h hemp
    cases hpc : payerCol df with
    | none =>
      have hstep : step1 df pags = df := by
        unfold step1; rw [if_neg hemp, hpc]
      have hfix : ∀ r ∈ df.rows, payerFix df pags r = r := fun r _ => by
        unfold payerFix; rw [if_neg hemp, hpc]
      refine ⟨df.rows, List.Sublist.refl _, ?_⟩
      rw [hstep, List.map_congr_left hfix, List.map_id']
    | some c =>
      cases hex : pags.mapM parseInt with
      | none =>
        have hstep := step1_skip_parse df hex
        have hfix : ∀ r ∈ df.rows, payerFix df pags r = r := fun r _ => by
          unfold payerFix; rw [if_neg hemp, hpc, hex]
        refine ⟨df.rows, List.Sublist.refl _, ?_⟩
        rw [hstep, List.map_congr_left hfix, List.map_id']
      | some exs =>
        have hstep := step1_active hemp' hpc hex
        have hfix : ∀ (r : Row),
            payerFix df pags r = updateCell r c (toNumeric (getCell r c)) := fun r => by
          unfold payerFix; rw [if_neg hemp, hpc, hex]
        refine ⟨df.rows.filter ((fun r => !(cellInInts (getCell r c) exs)) ∘
          (fun r => updateCell r c (toNumeric (getCell r c)))),
          List.filter_sublist _, ?_⟩
        rw [hstep]
        show (df.rows.map (fun r => updateCell r c (toNumeric (getCell r c)))).filter
          (fun r => !(cellInInts (getCell r c) exs)) = _
        rw [List.filter_map]
        exact (List.map_congr_left (fun r _ => hfix r)).symm

theorem rows_step4_transform (now : Int) (t : Table) :
    ∃ q : Row → Bool, (step4 now t).rows = (t.rows.filter q).map (dateFix t) := by
  by_cases hd : "DATACRIACAOOS" ∈ t.cols
  · have hfix : ∀ r : Row, dateFix t r =
        updateCell r "DATACRIACAOOS" (toDatetime (getCell r "DATACRIACAOOS")) := fun r => by
      unfold dateFix; rw [if_pos hd]
    refine ⟨(fun r => dateGE (getCell r "DATACRIACAOOS") (now - 60) &&
        !(getCell r "DATACRIACAOOS" == Cell.null)) ∘
        (fun r => updateCell r "DATACRIACAOOS" (toDatetime (getCell r "DATACRIACAOOS"))), ?_⟩
    unfold step4
    rw [if_pos hd]
    show ((t.rows.map (fun r =>
        updateCell r "DATACRIACAOOS" (toDatetime (getCell r "DATACRIACAOOS")))).filter
        (fun r => !(getCell r "DATACRIACAOOS" == Cell.null))).filter
        (fun r => dateGE (getCell r "DATACRIACAOOS") (now - 60)) = _
    rw [List.filter_filter, List.filter_map]
    exact (List.map_congr_left (fun r _ => hfix r)).symm
  · have hfix : ∀ r ∈ t.rows, dateFix t r = r := fun r _ => by
      unfold dateFix; rw [if_neg hd]
    refine ⟨fun _ => true, ?_⟩
    unfold step4
    rw [if_neg hd, List.filter_eq_self.mpr (fun _ _ => rfl),
      List.map_congr_left hfix, List.map_id']

theorem rows_step5_transform (t : Table) :
    ∃ q : Row → Bool, (step5 t).rows = t.rows.filter q := by
  unfold step5
  by_cases hs : "STATUSINADIMPLENTE" ∈ t.cols
  · rw [if_pos hs]
    exact ⟨_, rfl⟩
  · rw [if_neg hs]
    exact ⟨fun _ => true, (List.filter_eq_self.mpr (fun _ _ => rfl)).symm⟩

/-! ## Idempotence machinery -/

theorem toNumeric_idem (x : Cell) : toNumeric (toNumeric x) = toNumeric x := by
  cases x with
  | num n => rfl
  | str s =>
    have hstr : toNumeric (Cell.str s) =
        match parseInt s with
        | some n => Cell.num n
        | none => Cell.null := rfl
    rw [hstr]
    cases parseInt s with
    | some n => rfl
    | none => rfl
  | date d => rfl
  | null => rfl

theorem forall_rows_filterRows {P : Row → Prop} {p : Row → Bool} {t : Table}
    (h : ∀ r ∈ t.rows, P r) : ∀ r ∈ (filterRows p t).rows, P r :=
  fun r hr => h r (mem_filterRows.mp hr).1

theorem forall_rows_step5 {P : Row → Prop} {t : Table}
    (h : ∀ r ∈ t.rows, P r) : ∀ r ∈ (step5 t).rows, P r :=
  fun r hr => h r (step5_rows_subset t r hr)

theorem forall_rows_step4 {P : Row → Prop} {now : Int} {t : Table}
    (hP : ∀ r (v : Cell), P r → P (updateCell r "DATACRIACAOOS" v))
    (h : ∀ r ∈ t.rows, P r) : ∀ r ∈ (step4 now t).rows, P r := by
  intro r hr
  unfold step4 at hr
  split at hr
  · have h1 := (mem_filterRows.mp hr).1
    have h0 := (mem_filterRows.mp h1).1
    rcases mem_setCol.mp h0 with ⟨r0, hr0, rfl⟩
    exact hP r0 _ (h r0 hr0)
  · exact h r hr

theorem forall_rows_step6 {P : Row → Prop} {cats : List String} {t u : Table}
    (h6 : step6 cats t = some u)
    (hP1 : ∀ r (v : Cell), P r → P (updateCell r "Prioridade Motivo" v))
    (hP2 : ∀ r, P r → P (dropCellRow "Prioridade Motivo" r))
    (h : ∀ r ∈ t.rows, P r) : ∀ r ∈ u.rows, P r := by
  intro r hr
  by_cases hcat : "CATEGORIA4" ∈ t.cols
  · obtain ⟨-, rfl⟩ := step6_elim hcat h6
    rcases mem_dropCol.mp hr with ⟨x, hx, rfl⟩
    rcases mem_setCol.mp (mem_sortRows.mp hx) with ⟨r0, hr0, rfl⟩
    exact hP2 _ (hP1 r0 _ (h r0 (mem_filterRows.mp hr0).1))
  · rw [step6_skip hcat] at h6
    cases h6
    exact h r hr

theorem step6_cols_mem {cats : List String} {t u : Table} (h6 : step6 cats t = some u) :
    ∀ c, c ≠ "Prioridade Motivo" → (c ∈ u.cols ↔ c ∈ t.cols) := by
  intro c hc
  by_cases hcat : "CATEGORIA4" ∈ t.cols
  · obtain ⟨-, rfl⟩ := step6_elim hcat h6
    rw [mem_cols_dropCol hc]
    show c ∈ (sortRows _).cols ↔ _
    rw [cols_sortRows, mem_cols_setCol]
    simp [cols_filterRows, hc]
  · rw [step6_skip hcat] at h6
    cases h6
    exact Iff.rfl

theorem payerCol_congr {t1 t2 : Table}
    (h1 : "PAGADOR" ∈ t1.cols ↔ "PAGADOR" ∈ t2.cols)
    (h2 : "Pagador" ∈ t1.cols ↔ "Pagador" ∈ t2.cols) :
    payerCol t1 = payerCol t2 := by
  unfold payerCol
  by_cases hA : "PAGADOR" ∈ t2.cols
  · rw [if_pos hA, if_pos (h1.mpr hA)]
  · rw [if_neg hA, if_neg (fun hh => hA (h1.mp hh))]
    by_cases hB : "Pagador" ∈ t2.cols
    · rw [if_pos hB, if_pos (h2.mpr hB)]
    · rw [if_neg hB, if_neg (fun hh => hB (h2.mp hh))]

theorem step1_idem {t : Table} {pags : List String}
    (h : ∀ c exs, pags.isEmpty = false → payerCol t = some c →
      pags.mapM parseInt = some exs →
      ∀ r ∈ t.rows, RowNormAt r c ∧ toNumeric (getCell r c) = getCell r c ∧
        cellInInts (getCell r c) exs = false) :
    step1 t pags = t := by
  unfold step1
  split
  · rfl
  · next hemp =>
    have hemp' : pags.isEmpty = false := by
      cases he : pags.isEmpty
      · rfl
      · exact absurd he hemp
    cases hpc : payerCol t with
    | none => rfl
    | some c =>
      dsimp only
      cases hex : pags.mapM parseInt with
      | none => rfl
      | some exs =>
        dsimp only
        have hfacts := h c exs hemp' hpc hex
        have hset : setCol c (fun r => toNumeric (getCell r c)) t = t := by
          apply setCol_eq_self (payerCol_mem hpc)
          intro r hr
          rw [(hfacts r hr).2.1]
          exact updateCell_eq_self (hfacts r hr).1
        rw [hset]
        apply filterRows_eq_self
        intro r hr
        rw [(hfacts r hr).2.2]
        rfl

theorem step2_idem {t : Table} (hc : "Tipo de Churn" ∈ t.cols)
    (h : ∀ r ∈ t.rows, (getCell r "Tipo de Churn" == Cell.str "Involuntário") = false) :
    step2 t = some t := by
  rw [step2_some hc,
    filterRows_eq_self (fun r hr => by rw [h r hr]; rfl)]

theorem step3_idem {t : Table} (hc : "FORMAJURIDICA" ∈ t.cols)
    (h : ∀ r ∈ t.rows, (getCell r "FORMAJURIDICA" == Cell.str "C1") = false) :
    step3 t = some t := by
  rw [step3_some hc,
    filterRows_eq_self (fun r hr => by rw [h r hr]; rfl)]

theorem step4_idem {now : Int} {t : Table}
    (h : "DATACRIACAOOS" ∈ t.cols → ∀ r ∈ t.rows,
      RowNormAt r "DATACRIACAOOS" ∧
      ∃ d, getCell r "DATACRIACAOOS" = Cell.date d ∧ now - 60 ≤ d) :
    step4 now t = t := by
  unfold step4
  split
  · next hd =>
    have hfacts := h hd
    have hset : setCol "DATACRIACAOOS"
        (fun r => toDatetime (getCell r "DATACRIACAOOS")) t = t := by
      apply setCol_eq_self hd
      intro r hr
      obtain ⟨hnorm, d, hdate, -⟩ := hfacts r hr
      rw [hdate]
      show updateCell r "DATACRIACAOOS" (toDatetime (Cell.date d)) = r
      rw [show toDatetime (Cell.date d) = Cell.date d from rfl, ← hdate]
      exact updateCell_eq_self hnorm
    rw [hset]
    have hf1 : filterRows (fun r => !(getCell r "DATACRIACAOOS" == Cell.null)) t = t := by
      apply filterRows_eq_self
      intro r hr
      obtain ⟨-, d, hdate, -⟩ := hfacts r hr
      rw [hdate]
      rfl
    rw [hf1]
    apply filterRows_eq_self
    intro r hr
    obtain ⟨-, d, hdate, hge⟩ := hfacts r hr
    rw [hdate]
    show dateGE (Cell.date d) (now - 60) = true
    unfold dateGE
    exact decide_eq_true hge
  · rfl

theorem step5_idem {t : Table}
    (h : "STATUSINADIMPLENTE" ∈ t.cols → ∀ r ∈ t.rows,
      (getCell r "STATUSINADIMPLENTE" == Cell.str "I") = false) :
    step5 t = t := by
  unfold step5
  split
  · next hs =>
    apply filterRows_eq_self
    intro r hr
    rw [h hs r hr]
    rfl
  · rfl

theorem step6_idem {cats : List String} {t : Table}
    (hcat : "CATEGORIA4" ∈ t.cols)
    (hD : "DATACRIACAOOS" ∈ t.cols)
    (hprio : "Prioridade Motivo" ∉ t.cols)
    (hcatall : ∀ r ∈ t.rows, catAllowed cats r = true)
    (hnokey : ∀ r ∈ t.rows, NoKeyAt r "Prioridade Motivo")
    (hsorted : (t.rows.map
        (fun r => updateCell r "Prioridade Motivo" (prioCell cats r))).Pairwise
      (fun a b => rowLE a b = true)) :
    step6 cats t = some t := by
  unfold step6
  rw [if_pos hcat]
  simp only
  rw [filterRows_eq_self hcatall]
  rw [if_pos (mem_cols_setCol.mpr (Or.inl hD))]
  have hsort : sortRows (setCol "Prioridade Motivo" (prioCell cats) t) =
      setCol "Prioridade Motivo" (prioCell cats) t :=
    sortRows_eq_self hsorted
  rw [hsort]
  have hdrop : dropCol "Prioridade Motivo"
      (setCol "Prioridade Motivo" (prioCell cats) t) = t := by
    unfold dropCol setCol
    rw [if_neg hprio]
    have hcols : (t.cols ++ ["Prioridade Motivo"]).filter
        (fun x => !(x == "Prioridade Motivo")) = t.cols := by
      rw [List.filter_append]
      have h1 : t.cols.filter (fun x => !(x == "Prioridade Motivo")) = t.cols := by
        apply List.filter_eq_self.mpr
        intro x hx
        have : x ≠ "Prioridade Motivo" := fun he => hprio (he ▸ hx)
        simp [beq_eq_false_iff_ne.mpr this]
      rw [h1]
      simp
    have hrows : ((t.rows.map
        (fun r => updateCell r "Prioridade Motivo" (prioCell cats r))).map
        (dropCellRow "Prioridade Motivo")) = t.rows := by
      rw [List.map_map]
      have : ∀ r ∈ t.rows, (dropCellRow "Prioridade Motivo" ∘
          (fun r => updateCell r "Prioridade Motivo" (prioCell cats r))) r = r := by
        intro r hr
        show dropCellRow "Prioridade Motivo"
          (updateCell r "Prioridade Motivo" (prioCell cats r)) = r
        rw [dropCellRow_updateCell]
        exact dropCellRow_eq_self (hnokey r hr)
      rw [List.map_congr_left this, List.map_id']
    simp only at hcols hrows ⊢
    rw [hcols, hrows]
  rw [hdrop]

/-- The priority rank of an output row, recomputed from its category cell
(the transient priority column itself is dropped before the table is
returned). -/
def prioNat (cats : List String) (r : Row) : Option Nat :=
  match getCell r "CATEGORIA4" with
  | Cell.str s => mapLookup (prioridadeMap cats) s
  | _ => none

/-! ## Claims -/

/-- C7: for an input table lacking the churn-type column (`Tipo de Churn`) or
the legal-form column (`FORMAJURIDICA`), `processar` fails with an error
propagated to the caller (modelled as `none`) rather than returning a
partially-filtered table; no output artifact is produced. -/
theorem c7_missing_mandatory_column_fails (df : Table) (cats pags : List String) (now : Int)
    (h : "Tipo de Churn" ∉ df.cols ∨ "FORMAJURIDICA" ∉ df.cols) :
    processar df cats pags now = none := by
  unfold processar
  rcases h with h | h
  · rw [step2_none (by rw [cols_step1]; exact h)]
  · cases h2 : step2 (step1 df pags) with
    | none => rfl
    | some t2 =>
      dsimp only
      obtain ⟨-, rfl⟩ := step2_elim h2
      rw [step3_none (by simp only [cols_filterRows, cols_step1]; exact h)]

theorem c7_witness :
    processar ⟨["FORMAJURIDICA"], []⟩ [] [] 0 = none :=
  c7_missing_mandatory_column_fails ⟨["FORMAJURIDICA"], []⟩ [] [] 0 (Or.inl (by decide))

/-- C1: when the input table has the category column, every output row's
category is a member of the allow-list and its priority rank is one more than
a position of that category in the allow-list (with every row also carrying a
valid parsed date); and the output rows are sorted by creation date
descending, ties broken by ascending priority rank. -/
theorem c1_category_rank_and_sort (df out : Table) (cats pags : List String) (now : Int)
    (hcat : "CATEGORIA4" ∈ df.cols)
    (h : processar df cats pags now = some out) :
    (∀ r ∈ out.rows,
      (∃ s j, getCell r "CATEGORIA4" = Cell.str s ∧ s ∈ cats ∧
        cats.get? j = some s ∧ mapLookup (prioridadeMap cats) s = some (j + 1)) ∧
      (∃ d, getCell r "DATACRIACAOOS" = Cell.date d)) ∧
    out.rows.Pairwise (fun r1 r2 =>
      ∀ d1 d2, getCell r1 "DATACRIACAOOS" = Cell.date d1 →
        getCell r2 "DATACRIACAOOS" = Cell.date d2 →
        d2 ≤ d1 ∧ (d1 = d2 →
          ∀ p1 p2, prioNat cats r1 = some p1 → prioNat cats r2 = some p2 →
            p1 ≤ p2)) := by
  obtain ⟨t2, t3, h2, h3, h6⟩ := processar_elim h
  have hcat5 : "CATEGORIA4" ∈ (step5 (step4 now t3)).cols := by
    rw [cols_t5, cols_t3 h2 h3]; exact hcat
  have hdate3 : "DATACRIACAOOS" ∈ t3.cols := by
    have := (step6_elim hcat5 h6).1
    rw [cols_t5] at this
    exact this
  have hrowinfo : ∀ x ∈ out.rows, ∃ s j, getCell x "CATEGORIA4" = Cell.str s ∧
      s ∈ cats ∧ cats.get? j = some s ∧
      mapLookup (prioridadeMap cats) s = some (j + 1) ∧
      prioCell cats x = Cell.num (Int.ofNat (j + 1)) ∧
      prioNat cats x = some (j + 1) := by
    intro x hx
    have hcax := step6_rows_cat hcat5 h6 x hx
    unfold catAllowed at hcax
    cases hc : getCell x "CATEGORIA4" with
    | str s =>
      rw [hc] at hcax
      have hs : s ∈ cats := by simpa using hcax
      obtain ⟨j, hj⟩ := Option.isSome_iff_exists.mp ((lastIdxOf?_isSome_iff cats s).mpr hs)
      refine ⟨s, j, rfl, hs, lastIdxOf?_get cats s j hj, ?_, ?_, ?_⟩
      · rw [mapLookup_prioridadeMap, hj]; rfl
      · unfold prioCell
        rw [hc]
        dsimp only
        rw [mapLookup_prioridadeMap, hj]
        rfl
      · unfold prioNat
        rw [hc]
        dsimp only
        rw [mapLookup_prioridadeMap, hj]
        rfl
    | num n => rw [hc] at hcax; cases hcax
    | date d => rw [hc] at hcax; cases hcax
    | null => rw [hc] at hcax; cases hcax
  have hdates : ∀ x ∈ out.rows, ∃ d, getCell x "DATACRIACAOOS" = Cell.date d ∧
      now - 60 ≤ d := by
    intro x hx
    obtain ⟨r5, hr5, hcells⟩ := step6_rows_origin h6 x hx
    have hgc : getCell x "DATACRIACAOOS" = getCell r5 "DATACRIACAOOS" :=
      hcells _ (by decide)
    obtain ⟨d, hdate, hge⟩ := step4_rows_date hdate3 r5 (step5_rows_subset _ r5 hr5)
    exact ⟨d, by rw [hgc, hdate], hge⟩
  constructor
  · intro r hr
    obtain ⟨s, j, hc, hs, hg, hm, -, -⟩ := hrowinfo r hr
    obtain ⟨d, hd, -⟩ := hdates r hr
    exact ⟨⟨s, j, hc, hs, hg, hm⟩, ⟨d, hd⟩⟩
  · have hsorted := step6_rows_sorted hcat5 h6
    refine hsorted.imp_of_mem ?_
    intro a b ha hb hab d1 d2 hd1 hd2
    obtain ⟨s1, j1, hc1, -, -, -, hp1, hpn1⟩ := hrowinfo a ha
    obtain ⟨s2, j2, hc2, -, -, -, hp2, hpn2⟩ := hrowinfo b hb
    have hk1 : outKey cats a = (0, -d1, 0, Int.ofNat (j1 + 1)) := by
      unfold outKey
      apply key4_of_cells
      · rw [getCell_updateCell_ne _ _ _ _ (by decide)]; exact hd1
      · rw [getCell_updateCell_self]; exact hp1
    have hk2 : outKey cats b = (0, -d2, 0, Int.ofNat (j2 + 1)) := by
      unfold outKey
      apply key4_of_cells
      · rw [getCell_updateCell_ne _ _ _ _ (by decide)]; exact hd2
      · rw [getCell_updateCell_self]; exact hp2
    rw [hk1, hk2] at hab
    have hsem := le4_dates d1 d2 (Int.ofNat (j1 + 1)) (Int.ofNat (j2 + 1)) hab
    refine ⟨hsem.1, fun hdd p1 p2 hq1 hq2 => ?_⟩
    rw [hpn1] at hq1
    rw [hpn2] at hq2
    have e1 : j1 + 1 = p1 := Option.some.inj hq1
    have e2 : j2 + 1 = p2 := Option.some.inj hq2
    have hle := hsem.2 hdd
    rw [Int.ofNat_eq_coe, Int.ofNat_eq_coe, Int.ofNat_le] at hle
    omega

theorem c1_witness :
    (∀ r ∈ (Table.mk ["Tipo de Churn", "FORMAJURIDICA", "DATACRIACAOOS", "CATEGORIA4"]
        [[("Tipo de Churn", Cell.str "V"), ("FORMAJURIDICA", Cell.str "S"),
          ("DATACRIACAOOS", Cell.date 120), ("CATEGORIA4", Cell.str "B")],
         [("Tipo de Churn", Cell.str "V"), ("FORMAJURIDICA", Cell.str "S"),
          ("DATACRIACAOOS", Cell.date 100), ("CATEGORIA4", Cell.str "A")],
         [("Tipo de Churn", Cell.str "V"), ("FORMAJURIDICA", Cell.str "S"),
          ("DATACRIACAOOS", Cell.date 100), ("CATEGORIA4", Cell.str "B")]]).rows,
      (∃ s j, getCell r "CATEGORIA4" = Cell.str s ∧ s ∈ ["A", "B"] ∧
        ["A", "B"].get? j = some s ∧
        mapLookup (prioridadeMap ["A", "B"]) s = some (j + 1)) ∧
      (∃ d, getCell r "DATACRIACAOOS" = Cell.date d)) ∧
    (Table.mk ["Tipo de Churn", "FORMAJURIDICA", "DATACRIACAOOS", "CATEGORIA4"]
        [[("Tipo de Churn", Cell.str "V"), ("FORMAJURIDICA", Cell.str "S"),
          ("DATACRIACAOOS", Cell.date 120), ("CATEGORIA4", Cell.str "B")],
         [("Tipo de Churn", Cell.str "V"), ("FORMAJURIDICA", Cell.str "S"),
          ("DATACRIACAOOS", Cell.date 100), ("CATEGORIA4", Cell.str "A")],
         [("Tipo de Churn", Cell.str "V"), ("FORMAJURIDICA", Cell.str "S"),
          ("DATACRIACAOOS", Cell.date 100), ("CATEGORIA4", Cell.str "B")]]).rows.Pairwise
      (fun r1 r2 =>
        ∀ d1 d2, getCell r1 "DATACRIACAOOS" = Cell.date d1 →
          getCell r2 "DATACRIACAOOS" = Cell.date d2 →
          d2 ≤ d1 ∧ (d1 = d2 →
            ∀ p1 p2, prioNat ["A", "B"] r1 = some p1 →
              prioNat ["A", "B"] r2 = some p2 → p1 ≤ p2)) :=
  c1_category_rank_and_sort
    ⟨["Tipo de Churn", "FORMAJURIDICA", "DATACRIACAOOS", "CATEGORIA4"],
     [[("Tipo de Churn", Cell.str "V"), ("FORMAJURIDICA", Cell.str "S"),
       ("DATACRIACAOOS", Cell.str "100"), ("CATEGORIA4", Cell.str "B")],
      [("Tipo de Churn", Cell.str "V"), ("FORMAJURIDICA", Cell.str "S"),
       ("DATACRIACAOOS", Cell.str "100"), ("CATEGORIA4", Cell.str "A")],
      [("Tipo de Churn", Cell.str "V"), ("FORMAJURIDICA", Cell.str "S"),
       ("DATACRIACAOOS", Cell.str "120"), ("CATEGORIA4", Cell.str "B")]]⟩
    ⟨["Tipo de Churn", "FORMAJURIDICA", "DATACRIACAOOS", "CATEGORIA4"],
     [[("Tipo de Churn", Cell.str "V"), ("FORMAJURIDICA", Cell.str "S"),
       ("DATACRIACAOOS", Cell.date 120), ("CATEGORIA4", Cell.str "B")],
      [("Tipo de Churn", Cell.str "V"), ("FORMAJURIDICA", Cell.str "S"),
       ("DATACRIACAOOS", Cell.date 100), ("CATEGORIA4", Cell.str "A")],
      [("Tipo de Churn", Cell.str "V"), ("FORMAJURIDICA", Cell.str "S"),
       ("DATACRIACAOOS", Cell.date 100), ("CATEGORIA4", Cell.str "B")]]⟩
    ["A", "B"] [] 130 (by decide) (by rfl)

/-- C5: when the input table has the creation-date column, every output row
of `processar` carries a successfully parsed (non-null) date that is at least
`now - 60` (the current moment minus the 60-day window); rows whose date
failed to parse were dropped. -/
theorem c5_output_dates_recent (df out : Table) (cats pags : List String) (now : Int)
    (hd : "DATACRIACAOOS" ∈ df.cols)
    (h : processar df cats pags now = some out) :
    ∀ r ∈ out.rows, ∃ d, getCell r "DATACRIACAOOS" = Cell.date d ∧ now - 60 ≤ d := by
  obtain ⟨t2, t3, h2, h3, h6⟩ := processar_elim h
  have hd3 : "DATACRIACAOOS" ∈ t3.cols := by rw [cols_t3 h2 h3]; exact hd
  intro r hr
  obtain ⟨r5, hr5, hcells⟩ := step6_rows_origin h6 r hr
  have hgc : getCell r "DATACRIACAOOS" = getCell r5 "DATACRIACAOOS" :=
    hcells _ (by decide)
  have hr4 : r5 ∈ (step4 now t3).rows := step5_rows_subset _ r5 hr5
  obtain ⟨d, hdate, hge⟩ := step4_rows_date hd3 r5 hr4
  exact ⟨d, by rw [hgc, hdate], hge⟩

theorem c5_witness :
    ("DATACRIACAOOS" ∈ (Table.mk ["Tipo de Churn", "FORMAJURIDICA", "DATACRIACAOOS"]
        [[("Tipo de Churn", Cell.str "V"), ("FORMAJURIDICA", Cell.str "S"),
          ("DATACRIACAOOS", Cell.str "100")]]).cols) ∧
    (∀ r ∈ (Table.mk ["Tipo de Churn", "FORMAJURIDICA", "DATACRIACAOOS"]
        [[("Tipo de Churn", Cell.str "V"), ("FORMAJURIDICA", Cell.str "S"),
          ("DATACRIACAOOS", Cell.date 100)]]).rows,
      ∃ d, getCell r "DATACRIACAOOS" = Cell.date d ∧ (130 : Int) - 60 ≤ d) :=
  ⟨by decide,
    c5_output_dates_recent
      ⟨["Tipo de Churn", "FORMAJURIDICA", "DATACRIACAOOS"],
       [[("Tipo de Churn", Cell.str "V"), ("FORMAJURIDICA", Cell.str "S"),
         ("DATACRIACAOOS", Cell.str "100")]]⟩
      ⟨["Tipo de Churn", "FORMAJURIDICA", "DATACRIACAOOS"],
       [[("Tipo de Churn", Cell.str "V"), ("FORMAJURIDICA", Cell.str "S"),
         ("DATACRIACAOOS", Cell.date 100)]]⟩
      [] [] 130 (by decide) (by rfl)⟩

/-- C2: with a payer column present, (a) when every excluded-payer entry
parses as an integer, no output row carries a payer cell equal to any of the
parsed integers; (b) when some entry fails to parse, the payer-exclusion step
is inert: the pipeline computes exactly what it computes with no exclusions
requested at all (step 1 untouched the table, including the payer column's
original values, and processing continued). -/
theorem c2_payer_exclusion (df : Table) (cats pags : List String) (now : Int) (c : String)
    (hc : payerCol df = some c) :
    (∀ exs, pags.mapM parseInt = some exs →
      ∀ out, processar df cats pags now = some out →
        ∀ r ∈ out.rows, ∀ k ∈ exs, getCell r c ≠ Cell.num k) ∧
    (pags.mapM parseInt = none →
      processar df cats pags now = processar df cats [] now) := by
  constructor
  · intro exs hexs out h r hr k hk
    obtain ⟨t2, t3, h2, h3, h6⟩ := processar_elim h
    have hcD : c ≠ "DATACRIACAOOS" := by
      rcases payerCol_cases hc with rfl | rfl <;> decide
    have hcP : c ≠ "Prioridade Motivo" := by
      rcases payerCol_cases hc with rfl | rfl <;> decide
    have hstep1 : ∀ r1 ∈ (step1 df pags).rows, getCell r1 c ≠ Cell.num k := by
      intro r1 hr1
      cases hemp : pags.isEmpty with
      | true =>
        have : pags = [] := List.isEmpty_iff.mp hemp
        subst this
        simp only [List.mapM_nil] at hexs
        rw [show exs = [] from by simpa using hexs.symm] at hk
        simp at hk
      | false =>
        rw [step1_active hemp hc hexs] at hr1
        have hpred := (mem_filterRows.mp hr1).2
        have : cellInInts (getCell r1 c) exs = false := by simpa using hpred
        exact (cellInInts_false_iff _ _).mp this k hk
    obtain ⟨r5, hr5, hcells6⟩ := step6_rows_origin h6 r hr
    have hg6 : getCell r c = getCell r5 c := hcells6 c hcP
    have hr4 : r5 ∈ (step4 now t3).rows := step5_rows_subset _ r5 hr5
    obtain ⟨r3, hr3, hcells4⟩ := step4_rows_origin now t3 r5 hr4
    have hg4 : getCell r5 c = getCell r3 c := hcells4 c hcD
    have hr1 : r3 ∈ (step1 df pags).rows := mem_rows_t3 h2 h3 r3 hr3
    rw [hg6, hg4]
    exact hstep1 r3 hr1
  · intro hnone
    unfold processar
    rw [step1_skip_parse df hnone, step1_nil]

theorem c2_witness :
    (∀ exs, (["5"] : List String).mapM parseInt = some exs →
      ∀ out, processar
        ⟨["PAGADOR", "Tipo de Churn", "FORMAJURIDICA"],
         [[("PAGADOR", Cell.str "5"), ("Tipo de Churn", Cell.str "V"),
           ("FORMAJURIDICA", Cell.str "S")],
          [("PAGADOR", Cell.str "6"), ("Tipo de Churn", Cell.str "V"),
           ("FORMAJURIDICA", Cell.str "S")]]⟩ [] ["5"] 0 = some out →
        ∀ r ∈ out.rows, ∀ k ∈ exs, getCell r "PAGADOR" ≠ Cell.num k) ∧
    ((["5"] : List String).mapM parseInt = none →
      processar
        ⟨["PAGADOR", "Tipo de Churn", "FORMAJURIDICA"],
         [[("PAGADOR", Cell.str "5"), ("Tipo de Churn", Cell.str "V"),
           ("FORMAJURIDICA", Cell.str "S")],
          [("PAGADOR", Cell.str "6"), ("Tipo de Churn", Cell.str "V"),
           ("FORMAJURIDICA", Cell.str "S")]]⟩ [] ["5"] 0 =
      processar
        ⟨["PAGADOR", "Tipo de Churn", "FORMAJURIDICA"],
         [[("PAGADOR", Cell.str "5"), ("Tipo de Churn", Cell.str "V"),
           ("FORMAJURIDICA", Cell.str "S")],
          [("PAGADOR", Cell.str "6"), ("Tipo de Churn", Cell.str "V"),
           ("FORMAJURIDICA", Cell.str "S")]]⟩ [] [] 0) :=
  c2_payer_exclusion
    ⟨["PAGADOR", "Tipo de Churn", "FORMAJURIDICA"],
     [[("PAGADOR", Cell.str "5"), ("Tipo de Churn", Cell.str "V"),
       ("FORMAJURIDICA", Cell.str "S")],
      [("PAGADOR", Cell.str "6"), ("Tipo de Churn", Cell.str "V"),
       ("FORMAJURIDICA", Cell.str "S")]]⟩ [] ["5"] 0 "PAGADOR" (by decide)

/-- C4: with both mandatory columns present, steps 2 and 3 together compute
exactly the filter keeping the rows whose churn type is not `"Involuntário"`
and whose legal form is not `"C1"`: the surviving rows are unchanged and in
their original relative order, and membership in the result is equivalent to
membership in the input plus the two disequalities. -/
theorem c4_churn_legal_filters (t : Table)
    (hchurn : "Tipo de Churn" ∈ t.cols) (hlegal : "FORMAJURIDICA" ∈ t.cols) :
    (step2 t).bind step3 =
      some (filterRows (fun r =>
        (!(getCell r "Tipo de Churn" == Cell.str "Involuntário") &&
         !(getCell r "FORMAJURIDICA" == Cell.str "C1"))) t) ∧
    ∀ r, (r ∈ (filterRows (fun r =>
        (!(getCell r "Tipo de Churn" == Cell.str "Involuntário") &&
         !(getCell r "FORMAJURIDICA" == Cell.str "C1"))) t).rows ↔
      (r ∈ t.rows ∧ getCell r "Tipo de Churn" ≠ Cell.str "Involuntário" ∧
        getCell r "FORMAJURIDICA" ≠ Cell.str "C1")) := by
  constructor
  · rw [step2_some hchurn, Option.some_bind,
      step3_some (by simpa using hlegal), filterRows_filterRows]
  · intro r
    rw [mem_filterRows]
    simp [and_assoc]

theorem c4_witness :
    ((step2 (Table.mk ["Tipo de Churn", "FORMAJURIDICA"]
        [[("Tipo de Churn", Cell.str "Involuntário"), ("FORMAJURIDICA", Cell.str "S")],
         [("Tipo de Churn", Cell.str "V"), ("FORMAJURIDICA", Cell.str "C1")],
         [("Tipo de Churn", Cell.str "V"), ("FORMAJURIDICA", Cell.str "S")]])).bind step3 =
      some (filterRows (fun r =>
        (!(getCell r "Tipo de Churn" == Cell.str "Involuntário") &&
         !(getCell r "FORMAJURIDICA" == Cell.str "C1")))
        (Table.mk ["Tipo de Churn", "FORMAJURIDICA"]
          [[("Tipo de Churn", Cell.str "Involuntário"), ("FORMAJURIDICA", Cell.str "S")],
           [("Tipo de Churn", Cell.str "V"), ("FORMAJURIDICA", Cell.str "C1")],
           [("Tipo de Churn", Cell.str "V"), ("FORMAJURIDICA", Cell.str "S")]]))) ∧
    ∀ r, (r ∈ (filterRows (fun r =>
        (!(getCell r "Tipo de Churn" == Cell.str "Involuntário") &&
         !(getCell r "FORMAJURIDICA" == Cell.str "C1")))
        (Table.mk ["Tipo de Churn", "FORMAJURIDICA"]
          [[("Tipo de Churn", Cell.str "Involuntário"), ("FORMAJURIDICA", Cell.str "S")],
           [("Tipo de Churn", Cell.str "V"), ("FORMAJURIDICA", Cell.str "C1")],
           [("Tipo de Churn", Cell.str "V"), ("FORMAJURIDICA", Cell.str "S")]])).rows ↔
      (r ∈ (Table.mk ["Tipo de Churn", "FORMAJURIDICA"]
          [[("Tipo de Churn", Cell.str "Involuntário"), ("FORMAJURIDICA", Cell.str "S")],
           [("Tipo de Churn", Cell.str "V"), ("FORMAJURIDICA", Cell.str "C1")],
           [("Tipo de Churn", Cell.str "V"), ("FORMAJURIDICA", Cell.str "S")]]).rows ∧
        getCell r "Tipo de Churn" ≠ Cell.str "Involuntário" ∧
        getCell r "FORMAJURIDICA" ≠ Cell.str "C1")) :=
  c4_churn_legal_filters
    ⟨["Tipo de Churn", "FORMAJURIDICA"],
     [[("Tipo de Churn", Cell.str "Involuntário"), ("FORMAJURIDICA", Cell.str "S")],
      [("Tipo de Churn", Cell.str "V"), ("FORMAJURIDICA", Cell.str "C1")],
      [("Tipo de Churn", Cell.str "V"), ("FORMAJURIDICA", Cell.str "S")]]⟩
    (by decide) (by decide)

/-- C9 (implicit): the priority the dict of line 91 assigns to a category is
the 1-based index of its LAST occurrence in the allow-list — a duplicated
category's earlier position is overwritten by the later one. -/
theorem c9_duplicate_category_last_wins (cats : List String) (r : Row) (s : String)
    (h : getCell r "CATEGORIA4" = Cell.str s) :
    prioCell cats r =
      match lastIdxOf? cats s with
      | some j => Cell.num (Int.ofNat (j + 1))
      | none => Cell.null := by
  unfold prioCell
  rw [h]
  dsimp only
  rw [mapLookup_prioridadeMap]
  cases hl : lastIdxOf? cats s <;> rfl

theorem c9_witness :
    prioCell ["A", "B", "A"] [("CATEGORIA4", Cell.str "A")] = Cell.num 3 :=
  (c9_duplicate_category_last_wins ["A", "B", "A"]
    [("CATEGORIA4", Cell.str "A")] "A" (by decide)).trans (by decide)

/-- C10 (implicit): when the payer step runs with a fully parsed exclusion
list, the rows of its result are exactly the coerced input rows whose coerced
payer cell is not an excluded integer; a row whose payer cell coerces to null
is never dropped by the step, and the result's payer column holds the coerced
values (formerly non-numeric cells now null). -/
theorem c10_payer_coercion (df : Table) (pags : List String) (c : String) (exs : List Int)
    (hemp : pags.isEmpty = false) (hc : payerCol df = some c)
    (hexs : pags.mapM parseInt = some exs) :
    (step1 df pags).rows =
      (df.rows.map (fun r => updateCell r c (toNumeric (getCell r c)))).filter
        (fun r => !(cellInInts (getCell r c) exs)) ∧
    (∀ r ∈ df.rows, toNumeric (getCell r c) = Cell.null →
      updateCell r c Cell.null ∈ (step1 df pags).rows) ∧
    (∀ r' ∈ (step1 df pags).rows, ∃ r ∈ df.rows,
      r' = updateCell r c (toNumeric (getCell r c)) ∧
      getCell r' c = toNumeric (getCell r c) ∧
      cellInInts (getCell r' c) exs = false) := by
  rw [step1_active hemp hc hexs]
  refine ⟨rfl, ?_, ?_⟩
  · intro r hr hnull
    apply mem_filterRows.mpr
    constructor
    · apply mem_setCol.mpr
      exact ⟨r, hr, by rw [hnull]⟩
    · rw [getCell_updateCell_self]
      rfl
  · intro r' hr'
    have h1 := (mem_filterRows.mp hr').1
    have h2 := (mem_filterRows.mp hr').2
    rcases mem_setCol.mp h1 with ⟨r, hr, rfl⟩
    refine ⟨r, hr, rfl, getCell_updateCell_self r c _, by simpa using h2⟩

theorem c10_witness :
    ((step1 (Table.mk ["PAGADOR"]
        [[("PAGADOR", Cell.str "5")], [("PAGADOR", Cell.str "xx")]]) ["5"]).rows =
      ((Table.mk ["PAGADOR"]
          [[("PAGADOR", Cell.str "5")], [("PAGADOR", Cell.str "xx")]]).rows.map
        (fun r => updateCell r "PAGADOR" (toNumeric (getCell r "PAGADOR")))).filter
        (fun r => !(cellInInts (getCell r "PAGADOR") [5]))) ∧
    (∀ r ∈ (Table.mk ["PAGADOR"]
        [[("PAGADOR", Cell.str "5")], [("PAGADOR", Cell.str "xx")]]).rows,
      toNumeric (getCell r "PAGADOR") = Cell.null →
      updateCell r "PAGADOR" Cell.null ∈
        (step1 (Table.mk ["PAGADOR"]
          [[("PAGADOR", Cell.str "5")], [("PAGADOR", Cell.str "xx")]]) ["5"]).rows) ∧
    (∀ r' ∈ (step1 (Table.mk ["PAGADOR"]
        [[("PAGADOR", Cell.str "5")], [("PAGADOR", Cell.str "xx")]]) ["5"]).rows,
      ∃ r ∈ (Table.mk ["PAGADOR"]
          [[("PAGADOR", Cell.str "5")], [("PAGADOR", Cell.str "xx")]]).rows,
        r' = updateCell r "PAGADOR" (toNumeric (getCell r "PAGADOR")) ∧
        getCell r' "PAGADOR" = toNumeric (getCell r "PAGADOR") ∧
        cellInInts (getCell r' "PAGADOR") [5] = false) :=
  c10_payer_coercion
    ⟨["PAGADOR"], [[("PAGADOR", Cell.str "5")], [("PAGADOR", Cell.str "xx")]]⟩
    ["5"] "PAGADOR" [5] (by decide) (by decide) (by decide)

/-- C8: when the category column `CATEGORIA4` is absent, `processar` computes
exactly what the pipeline cut off before step 6 computes — no category
filtering and no reordering take place (note `pipeline15` takes no allow-list
at all); whatever table comes out consists of a sublist of the input rows, in
their original relative order, each transformed only by the payer coercion and
the date parse of the earlier steps; and that per-row transformation never
touches the `CATEGORIA4` cell, so rows of every category value survive
unchanged in that respect. -/
theorem c8_no_category_skips_filter_and_sort (df : Table) (cats pags : List String)
    (now : Int) (hcat : "CATEGORIA4" ∉ df.cols) :
    processar df cats pags now = pipeline15 df pags now ∧
    (∀ out, pipeline15 df pags now = some out →
      out.cols = df.cols ∧
      ∃ kept : List Row, List.Sublist kept df.rows ∧
        out.rows = kept.map (rowTransform15 df pags)) ∧
    (∀ r, getCell (rowTransform15 df pags r) "CATEGORIA4" = getCell r "CATEGORIA4") := by
  refine ⟨?_, ?_, ?_⟩
  · unfold processar pipeline15
    cases h2 : step2 (step1 df pags) with
    | none => rfl
    | some t2 =>
      dsimp only
      cases h3 : step3 t2 with
      | none => rfl
      | some t3 =>
        dsimp only
        apply step6_skip
        rw [cols_t5, cols_t3 h2 h3]
        exact hcat
  · intro out hout
    unfold pipeline15 at hout
    cases h2 : step2 (step1 df pags) with
    | none => rw [h2] at hout; cases hout
    | some t2 =>
      rw [h2] at hout
      dsimp only at hout
      cases h3 : step3 t2 with
      | none => rw [h3] at hout; cases hout
      | some t3 =>
        rw [h3] at hout
        dsimp only at hout
        have hout' : out = step5 (step4 now t3) := by cases hout; rfl
        subst hout'
        refine ⟨by rw [cols_t5, cols_t3 h2 h3], ?_⟩
        obtain ⟨kept1, hsub1, heq1⟩ := rows_step1_transform df pags
        obtain ⟨hc2, ht2⟩ := step2_elim h2
        obtain ⟨hc3, ht3⟩ := step3_elim h3
        have heq2 : t2.rows = (step1 df pags).rows.filter
            (fun r => !(getCell r "Tipo de Churn" == Cell.str "Involuntário")) := by
          rw [ht2]; rfl
        have heq3 : t3.rows = t2.rows.filter
            (fun r => !(getCell r "FORMAJURIDICA" == Cell.str "C1")) := by
          rw [ht3]; rfl
        obtain ⟨kept2, hsub2, heq2'⟩ := filter_of_map_eq
          (fun r => !(getCell r "Tipo de Churn" == Cell.str "Involuntário")) heq1
        rw [← heq2] at heq2'
        obtain ⟨kept3, hsub3, heq3'⟩ := filter_of_map_eq
          (fun r => !(getCell r "FORMAJURIDICA" == Cell.str "C1")) heq2'
        rw [← heq3] at heq3'
        obtain ⟨q4, heq4⟩ := rows_step4_transform now t3
        obtain ⟨kept4, hsub4, heq4'⟩ := filter_of_map_eq q4 heq3'
        rw [heq4'] at heq4
        rw [List.map_map] at heq4
        obtain ⟨q5, heq5⟩ := rows_step5_transform (step4 now t3)
        obtain ⟨kept5, hsub5, heq5'⟩ := filter_of_map_eq q5 heq4
        rw [heq5'] at heq5
        refine ⟨kept5, ?_, ?_⟩
        · exact (((hsub5.trans hsub4).trans hsub3).trans hsub2).trans hsub1
        · rw [heq5]
          apply List.map_congr_left
          intro r _
          show dateFix t3 (payerFix df pags r) = rowTransform15 df pags r
          unfold rowTransform15
          unfold dateFix
          rw [cols_t3 h2 h3]
  · intro r
    unfold rowTransform15
    have h1 : getCell (payerFix df pags r) "CATEGORIA4" = getCell r "CATEGORIA4" := by
      unfold payerFix
      split
      · rfl
      · cases hpc : payerCol df with
        | none => rfl
        | some c =>
          cases pags.mapM parseInt with
          | none => rfl
          | some exs =>
            apply getCell_updateCell_ne
            rcases payerCol_cases hpc with rfl | rfl <;> decide
    have h2 : ∀ r', getCell (dateFix df r') "CATEGORIA4" = getCell r' "CATEGORIA4" := by
      intro r'
      unfold dateFix
      split
      · exact getCell_updateCell_ne _ _ _ _ (by decide)
      · rfl
    rw [h2, h1]

theorem c8_witness :
    (processar
        ⟨["Tipo de Churn", "FORMAJURIDICA"],
         [[("Tipo de Churn", Cell.str "V"), ("FORMAJURIDICA", Cell.str "S")]]⟩
        ["X"] [] 0 =
      pipeline15
        ⟨["Tipo de Churn", "FORMAJURIDICA"],
         [[("Tipo de Churn", Cell.str "V"), ("FORMAJURIDICA", Cell.str "S")]]⟩
        [] 0) ∧
    (∀ out, pipeline15
        ⟨["Tipo de Churn", "FORMAJURIDICA"],
         [[("Tipo de Churn", Cell.str "V"), ("FORMAJURIDICA", Cell.str "S")]]⟩
        [] 0 = some out →
      out.cols = (Table.mk ["Tipo de Churn", "FORMAJURIDICA"]
         [[("Tipo de Churn", Cell.str "V"), ("FORMAJURIDICA", Cell.str "S")]]).cols ∧
      ∃ kept : List Row, List.Sublist kept (Table.mk ["Tipo de Churn", "FORMAJURIDICA"]
         [[("Tipo de Churn", Cell.str "V"), ("FORMAJURIDICA", Cell.str "S")]]).rows ∧
        out.rows = kept.map (rowTransform15
          ⟨["Tipo de Churn", "FORMAJURIDICA"],
           [[("Tipo de Churn", Cell.str "V"), ("FORMAJURIDICA", Cell.str "S")]]⟩ [])) ∧
    (∀ r, getCell (rowTransform15
        ⟨["Tipo de Churn", "FORMAJURIDICA"],
         [[("Tipo de Churn", Cell.str "V"), ("FORMAJURIDICA", Cell.str "S")]]⟩ [] r)
        "CATEGORIA4" = getCell r "CATEGORIA4") :=
  c8_no_category_skips_filter_and_sort
    ⟨["Tipo de Churn", "FORMAJURIDICA"],
     [[("Tipo de Churn", Cell.str "V"), ("FORMAJURIDICA", Cell.str "S")]]⟩
    ["X"] [] 0 (by decide)

/-- C6: `processar` is idempotent — rerunning it on its own output with the
same allow-list, the same exclusion list and the same current moment returns
that output unchanged (the output is a fixed point; only an advanced clock
could shrink it further through the recency window). -/
theorem c6_idempotent (df out : Table) (cats pags : List String) (now : Int)
    (h : processar df cats pags now = some out) :
    processar out cats pags now = some out := by
  obtain ⟨t2, t3, h2, h3, h6⟩ := processar_elim h
  obtain ⟨hc2, ht2⟩ := step2_elim h2
  obtain ⟨hc3, ht3⟩ := step3_elim h3
  have hchurn_df : "Tipo de Churn" ∈ df.cols := by
    rw [← cols_step1 df pags]; exact hc2
  have hlegal_df : "FORMAJURIDICA" ∈ df.cols := by
    have hx := hc3
    rw [ht2, cols_filterRows, cols_step1] at hx
    exact hx
  have ht5cols : (step5 (step4 now t3)).cols = df.cols := by
    rw [cols_t5, cols_t3 h2 h3]
  have hm : ∀ c, c ≠ "Prioridade Motivo" → (c ∈ out.cols ↔ c ∈ df.cols) := by
    intro c hc
    rw [step6_cols_mem h6 c hc, ht5cols]
  have hout_churn : ∀ r ∈ out.rows,
      (getCell r "Tipo de Churn" == Cell.str "Involuntário") = false := by
    refine forall_rows_step6 h6 ?_ ?_ ?_
    · intro r v hq
      rw [getCell_updateCell_ne _ _ _ _
        (by decide : ("Tipo de Churn" : String) ≠ "Prioridade Motivo")]
      exact hq
    · intro r hq
      rw [getCell_dropCellRow_ne _ _ _
        (by decide : ("Tipo de Churn" : String) ≠ "Prioridade Motivo")]
      exact hq
    · apply forall_rows_step5
      apply forall_rows_step4
      · intro r v hq
        rw [getCell_updateCell_ne _ _ _ _
          (by decide : ("Tipo de Churn" : String) ≠ "DATACRIACAOOS")]
        exact hq
      · intro r hr
        rw [ht3] at hr
        have hr2 := (mem_filterRows.mp hr).1
        rw [ht2] at hr2
        have hp := (mem_filterRows.mp hr2).2
        simpa using hp
  have hout_legal : ∀ r ∈ out.rows,
      (getCell r "FORMAJURIDICA" == Cell.str "C1") = false := by
    refine forall_rows_step6 h6 ?_ ?_ ?_
    · intro r v hq
      rw [getCell_updateCell_ne _ _ _ _
        (by decide : ("FORMAJURIDICA" : String) ≠ "Prioridade Motivo")]
      exact hq
    · intro r hq
      rw [getCell_dropCellRow_ne _ _ _
        (by decide : ("FORMAJURIDICA" : String) ≠ "Prioridade Motivo")]
      exact hq
    · apply forall_rows_step5
      apply forall_rows_step4
      · intro r v hq
        rw [getCell_updateCell_ne _ _ _ _
          (by decide : ("FORMAJURIDICA" : String) ≠ "DATACRIACAOOS")]
        exact hq
      · intro r hr
        rw [ht3] at hr
        have hp := (mem_filterRows.mp hr).2
        simpa using hp
  have hout_stat : "STATUSINADIMPLENTE" ∈ df.cols → ∀ r ∈ out.rows,
      (getCell r "STATUSINADIMPLENTE" == Cell.str "I") = false := by
    intro hS
    refine forall_rows_step6 h6 ?_ ?_ ?_
    · intro r v hq
      rw [getCell_updateCell_ne _ _ _ _
        (by decide : ("STATUSINADIMPLENTE" : String) ≠ "Prioridade Motivo")]
      exact hq
    · intro r hq
      rw [getCell_dropCellRow_ne _ _ _
        (by decide : ("STATUSINADIMPLENTE" : String) ≠ "Prioridade Motivo")]
      exact hq
    · exact step5_rows_status (by rw [cols_step4, cols_t3 h2 h3]; exact hS)
  have hout_date : "DATACRIACAOOS" ∈ df.cols → ∀ r ∈ out.rows,
      RowNormAt r "DATACRIACAOOS" ∧
      ∃ d, getCell r "DATACRIACAOOS" = Cell.date d ∧ now - 60 ≤ d := by
    intro hD
    have hD3 : "DATACRIACAOOS" ∈ t3.cols := by rw [cols_t3 h2 h3]; exact hD
    refine forall_rows_step6 h6 ?_ ?_ ?_
    · intro r v hq
      refine ⟨rowNormAt_updateCell_other _ v
        (by decide : ("DATACRIACAOOS" : String) ≠ "Prioridade Motivo") hq.1, ?_⟩
      obtain ⟨d, hd, hge⟩ := hq.2
      exact ⟨d, by
        rw [getCell_updateCell_ne _ _ _ _
          (by decide : ("DATACRIACAOOS" : String) ≠ "Prioridade Motivo")]
        exact hd, hge⟩
    · intro r hq
      refine ⟨rowNormAt_dropCellRow _
        (by decide : ("DATACRIACAOOS" : String) ≠ "Prioridade Motivo") hq.1, ?_⟩
      obtain ⟨d, hd, hge⟩ := hq.2
      exact ⟨d, by
        rw [getCell_dropCellRow_ne _ _ _
          (by decide : ("DATACRIACAOOS" : String) ≠ "Prioridade Motivo")]
        exact hd, hge⟩
    · refine forall_rows_step5 ?_
      intro r hr
      refine ⟨?_, step4_rows_date hD3 r hr⟩
      unfold step4 at hr
      rw [if_pos hD3] at hr
      rcases mem_setCol.mp (mem_filterRows.mp (mem_filterRows.mp hr).1).1 with ⟨r0, -, rfl⟩
      exact rowNormAt_updateCell_self r0 _ _
  have hout_payer : ∀ c exs, pags.isEmpty = false → payerCol df = some c →
      pags.mapM parseInt = some exs →
      ∀ r ∈ out.rows, RowNormAt r c ∧ toNumeric (getCell r c) = getCell r c ∧
        cellInInts (getCell r c) exs = false := by
    intro c exs hemp hpc hex
    have hcD : c ≠ "DATACRIACAOOS" := by
      rcases payerCol_cases hpc with rfl | rfl <;> decide
    have hcP : c ≠ "Prioridade Motivo" := by
      rcases payerCol_cases hpc with rfl | rfl <;> decide
    refine forall_rows_step6 h6 ?_ ?_ ?_
    · intro r v hq
      refine ⟨rowNormAt_updateCell_other _ v hcP hq.1, ?_, ?_⟩
      · rw [getCell_updateCell_ne _ _ _ _ hcP]; exact hq.2.1
      · rw [getCell_updateCell_ne _ _ _ _ hcP]; exact hq.2.2
    · intro r hq
      refine ⟨rowNormAt_dropCellRow _ hcP hq.1, ?_, ?_⟩
      · rw [getCell_dropCellRow_ne _ _ _ hcP]; exact hq.2.1
      · rw [getCell_dropCellRow_ne _ _ _ hcP]; exact hq.2.2
    · apply forall_rows_step5
      apply forall_rows_step4
      · intro r v hq
        refine ⟨rowNormAt_updateCell_other _ v hcD hq.1, ?_, ?_⟩
        · rw [getCell_updateCell_ne _ _ _ _ hcD]; exact hq.2.1
        · rw [getCell_updateCell_ne _ _ _ _ hcD]; exact hq.2.2
      · intro r hr
        have hr1 := mem_rows_t3 h2 h3 r hr
        rw [step1_active hemp hpc hex] at hr1
        have hpred := (mem_filterRows.mp hr1).2
        rcases mem_setCol.mp (mem_filterRows.mp hr1).1 with ⟨r0, -, hreq⟩
        subst hreq
        rw [getCell_updateCell_self] at hpred
        refine ⟨rowNormAt_updateCell_self r0 c _, ?_, ?_⟩
        · rw [getCell_updateCell_self]
          exact toNumeric_idem _
        · rw [getCell_updateCell_self]
          simpa using hpred
  have hs1 : step1 out pags = out := by
    apply step1_idem
    intro c exs hemp hpc' hex'
    have hpcout : payerCol out = payerCol df :=
      payerCol_congr (hm "PAGADOR" (by decide)) (hm "Pagador" (by decide))
    rw [hpcout] at hpc'
    exact hout_payer c exs hemp hpc' hex'
  have hs2 : step2 out = some out :=
    step2_idem ((hm _ (by decide)).mpr hchurn_df) hout_churn
  have hs3 : step3 out = some out :=
    step3_idem ((hm _ (by decide)).mpr hlegal_df) hout_legal
  have hs4 : step4 now out = out := by
    apply step4_idem
    intro hd
    exact hout_date ((hm _ (by decide)).mp hd)
  have hs5 : step5 out = out := by
    apply step5_idem
    intro hs
    exact hout_stat ((hm _ (by decide)).mp hs)
  have hs6 : step6 cats out = some out := by
    by_cases hcat : "CATEGORIA4" ∈ df.cols
    · have hcat5 : "CATEGORIA4" ∈ (step5 (step4 now t3)).cols := by
        rw [ht5cols]; exact hcat
      obtain ⟨hd5, hout_eq⟩ := step6_elim hcat5 h6
      have hdD : "DATACRIACAOOS" ∈ df.cols := by rw [← ht5cols]; exact hd5
      have hprio_out : "Prioridade Motivo" ∉ out.cols := by
        rw [hout_eq]; exact not_mem_cols_dropCol _ _
      have hcatall := step6_rows_cat hcat5 h6
      have hnokey : ∀ r ∈ out.rows, NoKeyAt r "Prioridade Motivo" := by
        intro r hr
        rw [hout_eq] at hr
        rcases mem_dropCol.mp hr with ⟨x, -, rfl⟩
        exact noKeyAt_dropCellRow x _
      have hsorted : (out.rows.map
          (fun r => updateCell r "Prioridade Motivo" (prioCell cats r))).Pairwise
          (fun a b => rowLE a b = true) := by
        have hs := step6_rows_sorted hcat5 h6
        rw [List.pairwise_map]
        exact hs
      exact step6_idem ((hm _ (by decide)).mpr hcat) ((hm _ (by decide)).mpr hdD)
        hprio_out hcatall hnokey hsorted
    · exact step6_skip (fun hh => hcat ((hm _ (by decide)).mp hh))
  unfold processar
  rw [hs1, hs2]
  dsimp only
  rw [hs3]
  dsimp only
  rw [hs4, hs5, hs6]

theorem c6_witness :
    processar ⟨["Tipo de Churn", "FORMAJURIDICA"],
      [[("Tipo de Churn", Cell.str "V"), ("FORMAJURIDICA", Cell.str "S")]]⟩
      [] [] 0 =
    some ⟨["Tipo de Churn", "FORMAJURIDICA"],
      [[("Tipo de Churn", Cell.str "V"), ("FORMAJURIDICA", Cell.str "S")]]⟩ :=
  c6_idempotent
    ⟨["Tipo de Churn", "FORMAJURIDICA"],
     [[("Tipo de Churn", Cell.str "V"), ("FORMAJURIDICA", Cell.str "S")]]⟩
    ⟨["Tipo de Churn", "FORMAJURIDICA"],
     [[("Tipo de Churn", Cell.str "V"), ("FORMAJURIDICA", Cell.str "S")]]⟩
    [] [] 0 (by rfl)

/-- C3 (code bug): a table that lacks `DATACRIACAOOS` but has the mandatory
columns and `CATEGORIA4` makes `processar` fail (modelled `none`): step 6
reaches `sort_values(by=['DATACRIACAOOS', ...])`, which raises `KeyError`,
although the step-4 branch had just warned that the date filter would merely
be skipped.  The first conjunct evaluates the failure; the second shows that
steps 1–5 by themselves succeed on the same input, locating the failure in
the category/sort step. -/
theorem c3_missing_date_with_category_errors :
    processar
      ⟨["Tipo de Churn", "FORMAJURIDICA", "CATEGORIA4"],
       [[("Tipo de Churn", Cell.str "Voluntário"),
         ("FORMAJURIDICA", Cell.str "S1"),
         ("CATEGORIA4", Cell.str "PRECO")]]⟩
      ["PRECO"] [] 0 = none ∧
    pipeline15
      ⟨["Tipo de Churn", "FORMAJURIDICA", "CATEGORIA4"],
       [[("Tipo de Churn", Cell.str "Voluntário"),
         ("FORMAJURIDICA", Cell.str "S1"),
         ("CATEGORIA4", Cell.str "PRECO")]]⟩
      [] 0 =
      some ⟨["Tipo de Churn", "FORMAJURIDICA", "CATEGORIA4"],
       [[("Tipo de Churn", Cell.str "Voluntário"),
         ("FORMAJURIDICA", Cell.str "S1"),
         ("CATEGORIA4", Cell.str "PRECO")]]⟩ := by
  constructor
  · decide
  · decide

end Mailingraf
